import Mathlib

/-!
Verification development for the ATS resume-enhancement backend.

The Python services under `backend/services/` are shallowly embedded here:
pure string manipulation is modelled on `List Char`, Python's `json.loads`
by a fuelled recursive-descent parser over the JSON grammar it accepts,
fallible Python code by `Except PyErr`, the LLM gateway by a response
script consumed one call at a time, and the in-memory session cache by an
association list with explicit time passing.
-/

namespace ATS

/-- Literal brace and backtick characters, named to keep string and char
literals free of them. -/
def lbrace : Char := Char.ofNat 123

def rbrace : Char := Char.ofNat 125

def btick : Char := Char.ofNat 96

/-- Whitespace accepted by Python's `json` module between tokens. -/
def jsonWs (c : Char) : Bool :=
  c = ' ' || c = '\t' || c = '\n' || c = '\r'

/-- ASCII whitespace stripped by Python's `str.strip()` (the `\x0b` and
`\x0c` characters in addition to the JSON set). -/
def pyWs (c : Char) : Bool :=
  jsonWs c || c = '\x0b' || c = '\x0c'

/-- `charsPrefix p cs` holds when `p` is a prefix of `cs`. -/
def charsPrefix : List Char → List Char → Bool
  | [], _ => true
  | _ :: _, [] => false
  | a :: as, b :: bs => a = b && charsPrefix as bs

/-- `charsContains hay nd` models Python's substring test `nd in hay`. -/
def charsContains (hay nd : List Char) : Bool :=
  match hay with
  | [] => charsPrefix nd []
  | _ :: t => charsPrefix nd hay || charsContains t nd

/-- Python `needle in haystack` on strings. -/
def pyIn (needle hay : String) : Bool :=
  charsContains hay.data needle.data

/-- Python `s.startswith(pre)`. -/
def pyStartsWith (s pre : String) : Bool :=
  charsPrefix pre.data s.data

/-- Python `s.endswith(suf)`. -/
def pyEndsWith (s suf : String) : Bool :=
  charsPrefix suf.data.reverse s.data.reverse

/-- Drop a whitespace suffix (`p`-satisfying) from the right end. -/
def rstripBy (p : Char → Bool) (cs : List Char) : List Char :=
  (cs.reverse.dropWhile p).reverse

/-- Strip `p`-characters from both ends. -/
def stripBy (p : Char → Bool) (cs : List Char) : List Char :=
  rstripBy p (cs.dropWhile p)

/-- Python `s.strip()` (ASCII fragment of its whitespace set). -/
def pyStrip (s : String) : String :=
  String.mk (stripBy pyWs s.data)

/-- Python slicing `s[n:]`. -/
def strDrop (n : Nat) (s : String) : String :=
  String.mk (s.data.drop n)

/-- Python slicing `s[:-n]` (empty when `len(s) ≤ n`). -/
def strDropRight (n : Nat) (s : String) : String :=
  String.mk (s.data.take (s.data.length - n))

/-- ASCII lowercasing, modelling Python `str.lower()` on ASCII text. -/
def pyLowerChar (c : Char) : Char :=
  if c.toNat ≥ 65 && c.toNat ≤ 90 then Char.ofNat (c.toNat + 32) else c

/-- Python `s.lower()`. -/
def pyLower (s : String) : String :=
  String.mk (s.data.map pyLowerChar)

/-- Python `s.split(sep)` for a single-character separator, which keeps
empty fields and yields `[""]` on the empty string. -/
def splitOnChar (sep : Char) : List Char → List (List Char)
  | [] => [[]]
  | c :: cs =>
    let rest := splitOnChar sep cs
    if c = sep then [] :: rest
    else
      match rest with
      | [] => [[c]]
      | r :: rs => (c :: r) :: rs

/-- Python `s.split("\n")`. -/
def pySplitNl (s : String) : List String :=
  (splitOnChar '\n' s.data).map String.mk

/-- Python `"\n".join(lines)`. -/
def pyJoinNl (lines : List String) : String :=
  String.intercalate "\n" lines

/-- JSON values as produced by `json.loads`.  Numbers keep their source
lexeme: no claim computes with numeric magnitudes, only with zero-ness
(Python truthiness), which is recoverable from the lexeme. -/
inductive Json where
  | null
  | bool (b : Bool)
  | num (lit : String)
  | str (s : String)
  | arr (elems : List Json)
  | obj (members : List (String × Json))

/-- Last binding of `k`, matching the overwrite semantics of building a
Python dict from parsed members with duplicate keys. -/
def lookupLast (kvs : List (String × Json)) (k : String) : Option Json :=
  match kvs with
  | [] => none
  | (k1, v) :: rest =>
    match lookupLast rest k with
    | some r => some r
    | none => if k1 = k then some v else none

/-- A JSON number lexeme denotes zero exactly when it has digits and all
of its mantissa digits are `0` (`NaN`/`Infinity` have no mantissa digits
and are truthy in Python). -/
def numIsZero (lit : String) : Bool :=
  let mantissa := lit.data.takeWhile fun c => !(c = 'e' || c = 'E')
  let ds := mantissa.filter Char.isDigit
  !ds.isEmpty && ds.all fun c => c = '0'

/-- Python truthiness of a decoded JSON value. -/
def pyTruthy : Json → Bool
  | .null => false
  | .bool b => b
  | .num lit => !numIsZero lit
  | .str s => !s.data.isEmpty
  | .arr xs => !xs.isEmpty
  | .obj kvs => !kvs.isEmpty

/-- Skip JSON inter-token whitespace. -/
def skipWs : List Char → List Char
  | [] => []
  | c :: cs => if jsonWs c then skipWs cs else c :: cs

def hexVal (c : Char) : Option Nat :=
  if c.toNat ≥ 48 && c.toNat ≤ 57 then some (c.toNat - 48)
  else if c.toNat ≥ 97 && c.toNat ≤ 102 then some (c.toNat - 87)
  else if c.toNat ≥ 65 && c.toNat ≤ 70 then some (c.toNat - 55)
  else none

def escChar (c : Char) : Option Char :=
  if c = '"' then some '"'
  else if c = '\\' then some '\\'
  else if c = '/' then some '/'
  else if c = 'b' then some '\x08'
  else if c = 'f' then some '\x0c'
  else if c = 'n' then some '\n'
  else if c = 'r' then some '\r'
  else if c = 't' then some '\t'
  else none

def consStr (c : Char) : Option (List Char × List Char) → Option (List Char × List Char)
  | some (cs, r) => some (c :: cs, r)
  | none => none

/-- Span of leading decimal digits. -/
def takeDigits : List Char → List Char × List Char
  | [] => ([], [])
  | c :: cs =>
    if c.isDigit then
      let (ds, r) := takeDigits cs
      (c :: ds, r)
    else ([], c :: cs)

/-- JSON integer part: `0`, or a nonzero digit followed by digits. -/
def parseIntPart : List Char → Option (List Char × List Char)
  | [] => none
  | c :: cs =>
    if c = '0' then some ([c], cs)
    else if c.isDigit then
      let pr := takeDigits cs
      some (c :: pr.1, pr.2)
    else none

/-- Optional JSON fraction part (`.` followed by one or more digits). -/
def parseFracPart : List Char → Option (List Char × List Char)
  | [] => some ([], [])
  | c :: cs =>
    if c = '.' then
      let pr := takeDigits cs
      if pr.1.isEmpty then none else some (c :: pr.1, pr.2)
    else some ([], c :: cs)

/-- Exponent digits (after `e`/`E`): an optional sign, then one or more
digits. -/
def parseExpPartCore (c : Char) (cs : List Char) : Option (List Char × List Char) :=
  match cs with
  | [] => none
  | s :: t =>
    if s = '+' || s = '-' then
      if (takeDigits t).1.isEmpty then none
      else some (c :: s :: (takeDigits t).1, (takeDigits t).2)
    else
      if (takeDigits (s :: t)).1.isEmpty then none
      else some (c :: (takeDigits (s :: t)).1, (takeDigits (s :: t)).2)

/-- Optional JSON exponent part (`e`/`E`, optional sign, digits). -/
def parseExpPart : List Char → Option (List Char × List Char)
  | [] => some ([], [])
  | c :: cs =>
    if c = 'e' || c = 'E' then parseExpPartCore c cs
    else some ([], c :: cs)

/-- Integer, fraction and exponent parts after an optional sign. -/
def parseNumberTail (sgn cs1 : List Char) : Option (List Char × List Char) :=
  match parseIntPart cs1 with
  | none => none
  | some (ip, cs2) =>
    match parseFracPart cs2 with
    | none => none
    | some (fp, cs3) =>
      match parseExpPart cs3 with
      | none => none
      | some (ep, cs4) => some (sgn ++ ip ++ fp ++ ep, cs4)

/-- JSON number (plus the `NaN`/`Infinity`/`-Infinity` extensions Python's
`json.loads` accepts by default), returning the lexeme and the rest. -/
def parseNumber (cs : List Char) : Option (List Char × List Char) :=
  if charsPrefix "NaN".data cs then some ("NaN".data, cs.drop 3)
  else if charsPrefix "Infinity".data cs then some ("Infinity".data, cs.drop 8)
  else if charsPrefix "-Infinity".data cs then some ("-Infinity".data, cs.drop 9)
  else
    match cs with
    | '-' :: t => parseNumberTail ['-'] t
    | _ => parseNumberTail [] cs

def litCheck (lit : List Char) (v : Json) (cs : List Char) : Option (Json × List Char) :=
  if charsPrefix lit cs then some (v, cs.drop lit.length) else none

mutual

/-- Body of a JSON string after the opening quote; yields the decoded
content and the input after the closing quote.  Strict mode: raw control
characters are rejected, as `json.loads` does by default. -/
def parseStringBody : Nat → List Char → Option (List Char × List Char)
  | 0, _ => none
  | _ + 1, [] => none
  | f + 1, c :: cs =>
    if c = '"' then some ([], cs)
    else if c = '\\' then
      match cs with
      | [] => none
      | e :: cs2 =>
        if e = 'u' then
          match cs2 with
          | h1 :: h2 :: h3 :: h4 :: cs3 =>
            match hexVal h1, hexVal h2, hexVal h3, hexVal h4 with
            | some a, some b, some d, some g =>
              consStr (Char.ofNat (a * 4096 + b * 256 + d * 16 + g)) (parseStringBody f cs3)
            | _, _, _, _ => none
          | _ => none
        else
          match escChar e with
          | some ch => consStr ch (parseStringBody f cs2)
          | none => none
    else if c.toNat < 32 then none
    else consStr c (parseStringBody f cs)

/-- One JSON value, dispatching on its first character (the caller has
already skipped whitespace). -/
def parseValue : Nat → List Char → Option (Json × List Char)
  | 0, _ => none
  | _ + 1, [] => none
  | f + 1, c :: cs =>
    if c = lbrace then parseObjBody f (skipWs cs)
    else if c = '[' then parseArrBody f (skipWs cs)
    else if c = '"' then
      match parseStringBody f cs with
      | some (content, r) => some (.str (String.mk content), r)
      | none => none
    else if c = 't' then litCheck "true".data (.bool true) (c :: cs)
    else if c = 'f' then litCheck "false".data (.bool false) (c :: cs)
    else if c = 'n' then litCheck "null".data .null (c :: cs)
    else if c.isDigit || c = '-' || c = 'N' || c = 'I' then
      match parseNumber (c :: cs) with
      | some (lex, r) => some (.num (String.mk lex), r)
      | none => none
    else none

/-- Object body after the opening brace (whitespace skipped). -/
def parseObjBody : Nat → List Char → Option (Json × List Char)
  | 0, _ => none
  | _ + 1, [] => none
  | f + 1, c :: t =>
    if c = rbrace then some (.obj [], t)
    else parseMembers f [] (c :: t)

/-- One `"key": value` member followed by `,` more members or the
closing brace. -/
def parseMembers : Nat → List (String × Json) → List Char → Option (Json × List Char)
  | 0, _, _ => none
  | _ + 1, _, [] => none
  | f + 1, acc, c :: t =>
    if c = '"' then
      match parseStringBody f t with
      | none => none
      | some (key, r1) =>
        match skipWs r1 with
        | ':' :: r2 =>
          match parseValue f (skipWs r2) with
          | none => none
          | some (v, r3) =>
            match skipWs r3 with
            | [] => none
            | d :: r4 =>
              if d = rbrace then some (.obj (acc ++ [(String.mk key, v)]), r4)
              else if d = ',' then parseMembers f (acc ++ [(String.mk key, v)]) (skipWs r4)
              else none
        | _ => none
    else none

/-- Array body after the opening bracket (whitespace skipped). -/
def parseArrBody : Nat → List Char → Option (Json × List Char)
  | 0, _ => none
  | _ + 1, [] => none
  | f + 1, c :: t =>
    if c = ']' then some (.arr [], t)
    else parseElems f [] (c :: t)

/-- One array element followed by `,` more elements or the closing
bracket. -/
def parseElems : Nat → List Json → List Char → Option (Json × List Char)
  | 0, _, _ => none
  | f + 1, acc, cs =>
    match parseValue f cs with
    | none => none
    | some (v, r1) =>
      match skipWs r1 with
      | [] => none
      | d :: r2 =>
        if d = ']' then some (.arr (acc ++ [v]), r2)
        else if d = ',' then parseElems f (acc ++ [v]) (skipWs r2)
        else none

end

/-- Strip JSON whitespace from both ends of the document. -/
def jsonStripChars (cs : List Char) : List Char :=
  stripBy jsonWs cs

/-- Python `json.loads` on a string: the (stripped) document must consist
of exactly one JSON value.  Returns `none` where `json.loads` raises
`JSONDecodeError`. -/
def json_loads (s : String) : Option Json :=
  let cs := jsonStripChars s.data
  match parseValue (4 * cs.length + 8) cs with
  | some (v, []) => some v
  | _ => none



/-! ## Data model (`resume_parser.py`, `gap_analyzer.py`) -/

/-- Work experience entry. -/
structure ExperienceEntry where
  company : String
  job_title : String
  duration : String
  location : String := ""
  responsibilities : List String := []
deriving DecidableEq

/-- Project entry. -/
structure ProjectEntry where
  name : String
  description : String
  technologies : List String := []
  highlights : List String := []
deriving DecidableEq

/-- Education entry. -/
structure EducationEntry where
  institution : String
  degree : String
  field_of_study : String := ""
  graduation_date : String := ""
  gpa : String := ""
deriving DecidableEq

/-- Structured resume data - READ ONLY during reconstruction. -/
structure ParsedResume where
  name : String := ""
  email : String := ""
  phone : String := ""
  linkedin : String := ""
  location : String := ""
  summary : String := ""
  skills : List String := []
  experience : List ExperienceEntry := []
  projects : List ProjectEntry := []
  education : List EducationEntry := []
  certifications : List String := []
  languages : List String := []
deriving DecidableEq

/-- Gap analysis results. -/
structure GapAnalysis where
  missing_keywords : List String := []
  weak_sections : List String := []
  improvement_recommendations : List String := []
  priority_skills : List String := []
  jd_keywords : List String := []
  matched_skills : List String := []
deriving DecidableEq

def strListJson (xs : List String) : Json :=
  .arr (xs.map .str)

/-- `ParsedResume.to_dict`: conversion to the dictionary serialized into
prompts. -/
def ParsedResume.to_dict (r : ParsedResume) : Json :=
  .obj
    [ ("name", .str r.name), ("email", .str r.email), ("phone", .str r.phone),
      ("linkedin", .str r.linkedin), ("location", .str r.location),
      ("summary", .str r.summary), ("skills", strListJson r.skills),
      ("experience", .arr (r.experience.map fun exp =>
        .obj [ ("company", .str exp.company), ("job_title", .str exp.job_title),
               ("duration", .str exp.duration), ("location", .str exp.location),
               ("responsibilities", strListJson exp.responsibilities) ])),
      ("projects", .arr (r.projects.map fun proj =>
        .obj [ ("name", .str proj.name), ("description", .str proj.description),
               ("technologies", strListJson proj.technologies),
               ("highlights", strListJson proj.highlights) ])),
      ("education", .arr (r.education.map fun edu =>
        .obj [ ("institution", .str edu.institution), ("degree", .str edu.degree),
               ("field_of_study", .str edu.field_of_study),
               ("graduation_date", .str edu.graduation_date),
               ("gpa", .str edu.gpa) ])),
      ("certifications", strListJson r.certifications),
      ("languages", strListJson r.languages) ]

/-- `GapAnalysis.to_dict`. -/
def GapAnalysis.to_dict (g : GapAnalysis) : Json :=
  .obj
    [ ("missing_keywords", strListJson g.missing_keywords),
      ("weak_sections", strListJson g.weak_sections),
      ("improvement_recommendations", strListJson g.improvement_recommendations),
      ("priority_skills", strListJson g.priority_skills),
      ("jd_keywords", strListJson g.jd_keywords),
      ("matched_skills", strListJson g.matched_skills) ]

/-! ## `json.dumps(..., indent=2)` (used when embedding the resume in
prompts) -/

def hexDigit (n : Nat) : Char :=
  if n < 10 then Char.ofNat (48 + n) else Char.ofNat (87 + n)

def hex4 (n : Nat) : String :=
  String.mk [hexDigit (n / 4096 % 16), hexDigit (n / 256 % 16), hexDigit (n / 16 % 16), hexDigit (n % 16)]

/-- Escape one character the way `json.dumps` (with the default
`ensure_ascii=True`) renders it inside a string literal. -/
def jsonEscapeChar (c : Char) : String :=
  if c = '"' then "\\\""
  else if c = '\\' then "\\\\"
  else if c = '\n' then "\\n"
  else if c = '\t' then "\\t"
  else if c = '\r' then "\\r"
  else if c = '\x08' then "\\b"
  else if c = '\x0c' then "\\f"
  else if c.toNat < 32 then "\\u" ++ hex4 c.toNat
  else if c.toNat < 128 then String.mk [c]
  else if c.toNat < 65536 then "\\u" ++ hex4 c.toNat
  else
    let v := c.toNat - 65536
    "\\u" ++ hex4 (55296 + v / 1024) ++ "\\u" ++ hex4 (56320 + v % 1024)

def jsonQuote (s : String) : String :=
  "\"" ++ String.join (s.data.map jsonEscapeChar) ++ "\""

def spaces (n : Nat) : String :=
  String.mk (List.replicate n ' ')

mutual

/-- `json.dumps(v, indent=2)` at nesting level `lvl`. -/
def jsonDumps : Nat → Json → String
  | _, .null => "null"
  | _, .bool true => "true"
  | _, .bool false => "false"
  | _, .num lit => lit
  | _, .str s => jsonQuote s
  | _, .arr [] => "[]"
  | lvl, .arr (x :: xs) =>
    "[\n" ++ jsonDumpsItems (lvl + 1) (x :: xs) ++ "\n" ++ spaces (2 * lvl) ++ "]"
  | _, .obj [] => "\x7b\x7d"
  | lvl, .obj (kv :: kvs) =>
    "\x7b\n" ++ jsonDumpsMembers (lvl + 1) (kv :: kvs) ++ "\n" ++ spaces (2 * lvl) ++ "\x7d"

def jsonDumpsItems : Nat → List Json → String
  | _, [] => ""
  | lvl, [x] => spaces (2 * lvl) ++ jsonDumps lvl x
  | lvl, x :: y :: xs =>
    spaces (2 * lvl) ++ jsonDumps lvl x ++ ",\n" ++ jsonDumpsItems lvl (y :: xs)

def jsonDumpsMembers : Nat → List (String × Json) → String
  | _, [] => ""
  | lvl, [(k, v)] => spaces (2 * lvl) ++ jsonQuote k ++ ": " ++ jsonDumps lvl v
  | lvl, (k, v) :: y :: kvs =>
    spaces (2 * lvl) ++ jsonQuote k ++ ": " ++ jsonDumps lvl v ++ ",\n" ++ jsonDumpsMembers lvl (y :: kvs)

end

/-! ## AI gateway and Python-exception model -/

/-- Exceptions the embedded services can raise: the parse failure raised
by `parse_resume` (`Exception("Failed to parse resume into structured
format")`), Python `TypeError`, and Python `AttributeError`. -/
inductive PyErr where
  | parseErr
  | typeErr
  | attrErr
deriving DecidableEq

/-- The LLM gateway (`ai_providers.get_ai_response`) modelled as an
external oracle: a script of responses indexed by call number.  The spec
treats provider output as nondeterministic text, so correctness
properties quantify over every script. -/
structure AIEnv where
  script : Nat → String
  calls : Nat

/-- One gateway call: consumes the next scripted response. -/
def get_ai_response (_prompt _provider _model : String) (env : AIEnv) : String × AIEnv :=
  (env.script env.calls, { script := env.script, calls := env.calls + 1 })

/-! ## Untrusted-JSON field extraction

Python stores `data.get(...)` results into dataclass fields without type
checks.  The embedding types its fields, so a value of unexpected JSON
type is flagged as `typeErr`; `.get` on a non-dict is `attrErr`, and
iterating a non-iterable is `typeErr` - exactly the places where the
Python would raise (or store an ill-typed value that no claim relies
on). -/

def exMapM (f : α → Except PyErr β) : List α → Except PyErr (List β)
  | [] => .ok []
  | x :: xs =>
    match f x with
    | .error e => .error e
    | .ok b =>
      match exMapM f xs with
      | .error e => .error e
      | .ok bs => .ok (b :: bs)

def asStr : Json → Except PyErr String
  | .str s => .ok s
  | _ => .error .typeErr

def asStrList : Json → Except PyErr (List String)
  | .arr xs => exMapM asStr xs
  | _ => .error .typeErr

/-- `data.get(k, d)` on a decoded dict. -/
def dictGetD (kvs : List (String × Json)) (k : String) (d : Json) : Json :=
  (lookupLast kvs k).getD d

/-- `.get` on a non-dict raises `AttributeError`. -/
def asObjMembers : Json → Except PyErr (List (String × Json))
  | .obj kvs => .ok kvs
  | _ => .error .attrErr

/-- Python `for x in j`: lists yield elements, strings yield one-character
strings, dicts yield their keys, everything else raises `TypeError`. -/
def pyElems : Json → Except PyErr (List Json)
  | .arr xs => .ok xs
  | .str s => .ok (s.data.map fun c => Json.str (String.mk [c]))
  | .obj kvs => .ok (kvs.map fun kv => Json.str kv.1)
  | _ => .error .typeErr

/-! ## Shared response cleanup (`parse_json_safely` in `resume_parser.py`
and `gap_analyzer.py` differ only in their failure value) -/

/-- Strip surrounding whitespace and markdown code fences, then
`json.loads`; `none` models a caught `JSONDecodeError`. -/
def cleaned_json_loads (response : String) : Option Json :=
  let r := pyStrip response
  let r := if pyStartsWith r "```json" then strDrop 7 r else r
  let r := if pyStartsWith r "```" then strDrop 3 r else r
  let r := if pyEndsWith r "```" then strDropRight 3 r else r
  let r := pyStrip r
  json_loads r

/-! ## Resume Parser (`services/resume_parser.py`) -/

namespace ResumeParser

/-- Prompt to parse resume into structured data (`get_parsing_prompt`). -/
def get_parsing_prompt (resume_text : String) : String :=
  "You are an expert resume parser. Extract ALL information from the following resume into a structured JSON format.\n\n**IMPORTANT**: Extract ONLY what is explicitly stated. Do NOT infer, guess, or add information.\n\n**Resume Text:**\n" ++
  resume_text ++
  "\n\n**Return ONLY valid JSON in this exact format:**\n\x7b\n    \"name\": \"Full Name\",\n    \"email\": \"email@example.com\",\n    \"phone\": \"+1234567890\",\n    \"linkedin\": \"linkedin.com/in/username or empty string\",\n    \"location\": \"City, Country or empty string\",\n    \"summary\": \"Professional summary if present, empty string if not\",\n" ++
  "    \"skills\": [\"Skill1\", \"Skill2\", \"Skill3\"],\n    \"experience\": [\n        \x7b\n            \"company\": \"Company Name\",\n            \"job_title\": \"Job Title\",\n            \"duration\": \"Jan 2020 - Present\",\n            \"location\": \"City, Country\",\n            \"responsibilities\": [\"Responsibility 1\", \"Responsibility 2\"]\n" ++
  "        \x7d\n    ],\n    \"projects\": [\n        \x7b\n            \"name\": \"Project Name\",\n            \"description\": \"Brief description\",\n            \"technologies\": [\"Tech1\", \"Tech2\"],\n            \"highlights\": [\"Achievement 1\", \"Achievement 2\"]\n        \x7d\n    ],\n    \"education\": [\n        \x7b\n            \"institution\": \"University Name\",\n" ++
  "            \"degree\": \"Bachelor\x27s/Master\x27s etc\",\n            \"field_of_study\": \"Computer Science\",\n            \"graduation_date\": \"2020\",\n            \"gpa\": \"3.8 or empty string\"\n        \x7d\n    ],\n    \"certifications\": [\"Cert1\", \"Cert2\"],\n    \"languages\": [\"English\", \"Spanish\"]\n\x7d\n\nReturn ONLY the JSON, no explanation or markdown formatting."

/-- Parse JSON from AI response, handling markdown code blocks; `none`
models the `None` returned on `JSONDecodeError`. -/
def parse_json_safely (response : String) : Option Json :=
  cleaned_json_loads response

/-- Deserialize one experience dict (`exp.get(...)` with defaults). -/
def buildExperience (j : Json) : Except PyErr ExperienceEntry := do
  let kvs ← asObjMembers j
  let company ← asStr (dictGetD kvs "company" (.str ""))
  let job_title ← asStr (dictGetD kvs "job_title" (.str ""))
  let duration ← asStr (dictGetD kvs "duration" (.str ""))
  let location ← asStr (dictGetD kvs "location" (.str ""))
  let responsibilities ← asStrList (dictGetD kvs "responsibilities" (.arr []))
  .ok { company, job_title, duration, location, responsibilities }

/-- Deserialize one project dict. -/
def buildProject (j : Json) : Except PyErr ProjectEntry := do
  let kvs ← asObjMembers j
  let name ← asStr (dictGetD kvs "name" (.str ""))
  let description ← asStr (dictGetD kvs "description" (.str ""))
  let technologies ← asStrList (dictGetD kvs "technologies" (.arr []))
  let highlights ← asStrList (dictGetD kvs "highlights" (.arr []))
  .ok { name, description, technologies, highlights }

/-- Deserialize one education dict. -/
def buildEducation (j : Json) : Except PyErr EducationEntry := do
  let kvs ← asObjMembers j
  let institution ← asStr (dictGetD kvs "institution" (.str ""))
  let degree ← asStr (dictGetD kvs "degree" (.str ""))
  let field_of_study ← asStr (dictGetD kvs "field_of_study" (.str ""))
  let graduation_date ← asStr (dictGetD kvs "graduation_date" (.str ""))
  let gpa ← asStr (dictGetD kvs "gpa" (.str ""))
  .ok { institution, degree, field_of_study, graduation_date, gpa }

/-- Build the `ParsedResume` from the decoded dict, in the source's field
order: scalars and string lists first, then the three entry loops. -/
def buildParsedResume (kvs : List (String × Json)) : Except PyErr ParsedResume := do
  let name ← asStr (dictGetD kvs "name" (.str ""))
  let email ← asStr (dictGetD kvs "email" (.str ""))
  let phone ← asStr (dictGetD kvs "phone" (.str ""))
  let linkedin ← asStr (dictGetD kvs "linkedin" (.str ""))
  let location ← asStr (dictGetD kvs "location" (.str ""))
  let summary ← asStr (dictGetD kvs "summary" (.str ""))
  let skills ← asStrList (dictGetD kvs "skills" (.arr []))
  let certifications ← asStrList (dictGetD kvs "certifications" (.arr []))
  let languages ← asStrList (dictGetD kvs "languages" (.arr []))
  let expItems ← pyElems (dictGetD kvs "experience" (.arr []))
  let experience ← exMapM buildExperience expItems
  let projItems ← pyElems (dictGetD kvs "projects" (.arr []))
  let projects ← exMapM buildProject projItems
  let eduItems ← pyElems (dictGetD kvs "education" (.arr []))
  let education ← exMapM buildEducation eduItems
  .ok { name, email, phone, linkedin, location, summary, skills, experience,
        projects, education, certifications, languages }

/-- The response-processing tail of `parse_resume`: cleanup, the
`if not data` guard (true for `None` and for falsy decoded values), then
field extraction.  `.error .parseErr` is the raised
`Exception("Failed to parse resume into structured format")`. -/
def parse_resume_of_data (data : Json) : Except PyErr ParsedResume :=
  if pyTruthy data then
    match data with
    | .obj kvs => buildParsedResume kvs
    | _ => .error .attrErr
  else .error .parseErr

def parse_resume_of_response (response : String) : Except PyErr ParsedResume :=
  match parse_json_safely response with
  | none => .error .parseErr
  | some data => parse_resume_of_data data

/-- `parse_resume`: one gateway call on the parsing prompt, then the
response processing above. -/
def parse_resume (resume_text provider model : String) (env : AIEnv) :
    Except PyErr ParsedResume × AIEnv :=
  let prompt := get_parsing_prompt resume_text
  let (response, env1) := get_ai_response prompt provider model env
  (parse_resume_of_response response, env1)

end ResumeParser

/-! ## Gap Analyzer (`services/gap_analyzer.py`) -/

namespace GapAnalyzer

def get_gap_analysis_prompt_text (resume_json job_description job_position : String) : String :=
  "You are an expert ATS (Applicant Tracking System) analyst.\n\nAnalyze the gap between this resume and job description for the position: " ++
  job_position ++
  "\n\n**Parsed Resume Data:**\n" ++
  resume_json ++
  "\n\n**Job Description:**\n" ++
  job_description ++
  "\n\n**Your Task:**\n1. Identify keywords from the JD that are PRESENT in the resume (matched)\n2. Identify keywords from the JD that are MISSING from the resume\n3. Identify which sections of the resume are weak or need improvement\n4. Provide specific recommendations for how to optimize the resume\n5. List the priority skills the JD is looking for\n" ++
  "\n**IMPORTANT:** \n- \"Missing\" means truly absent from the resume\n- Some skills may be present but weakly worded - these go in weak_sections\n- Some skills may be implicit - these are matched, not missing\n\n**Return ONLY valid JSON:**\n\x7b\n    \"jd_keywords\": [\"keyword1\", \"keyword2\"],\n    \"matched_skills\": [\"skill from resume that matches JD\"],\n" ++
  "    \"missing_keywords\": [\"truly absent skills\"],\n    \"weak_sections\": [\"sections that need improvement\"],\n    \"improvement_recommendations\": [\"specific actionable recommendations\"],\n    \"priority_skills\": [\"most important skills from JD\"]\n\x7d\n\nReturn ONLY the JSON, no explanation."

/-- `get_gap_analysis_prompt`, serializing the resume with
`json.dumps(..., indent=2)`. -/
def get_gap_analysis_prompt (parsed_resume : ParsedResume) (job_description job_position : String) : String :=
  get_gap_analysis_prompt_text (jsonDumps 0 parsed_resume.to_dict) job_description job_position

/-- Parse JSON from AI response; an unparseable response degrades to an
empty dict rather than `None`. -/
def parse_json_safely (response : String) : Json :=
  match cleaned_json_loads response with
  | some j => j
  | none => .obj []

/-- The six `data.get(k, [])` field extractions of `analyze_gaps`. -/
def buildGapAnalysis (data : Json) : Except PyErr GapAnalysis := do
  let kvs ← asObjMembers data
  let missing_keywords ← asStrList (dictGetD kvs "missing_keywords" (.arr []))
  let weak_sections ← asStrList (dictGetD kvs "weak_sections" (.arr []))
  let improvement_recommendations ← asStrList (dictGetD kvs "improvement_recommendations" (.arr []))
  let priority_skills ← asStrList (dictGetD kvs "priority_skills" (.arr []))
  let jd_keywords ← asStrList (dictGetD kvs "jd_keywords" (.arr []))
  let matched_skills ← asStrList (dictGetD kvs "matched_skills" (.arr []))
  .ok { missing_keywords, weak_sections, improvement_recommendations,
        priority_skills, jd_keywords, matched_skills }

/-- `analyze_gaps`: one gateway call, lenient cleanup, field extraction. -/
def analyze_gaps (parsed_resume : ParsedResume) (job_description job_position provider model : String)
    (env : AIEnv) : Except PyErr GapAnalysis × AIEnv :=
  let prompt := get_gap_analysis_prompt parsed_resume job_description job_position
  let (response, env1) := get_ai_response prompt provider model env
  let data := parse_json_safely response
  (buildGapAnalysis data, env1)

end GapAnalyzer

/-! ## Resume Reconstructor (`services/resume_reconstructor.py`) -/

namespace Reconstructor

def ENHANCEMENT_SYSTEM_PROMPT : String :=
  "You are an expert Resume Enhancement Engine.\n\nYour job is to CREATE AN UPGRADED VERSION of the user\x27s resume that is PERFECTLY TAILORED to the Job Description (JD).\n\n🎯 YOUR MISSION:\nTake the user\x27s original resume and JD analysis, then OUTPUT a complete enhanced resume with:\n1. ALL original content preserved and improved\n" ++
  "2. MISSING SKILLS intelligently added into the Skills section\n3. EXPERIENCE bullets rewritten to highlight JD-relevant achievements\n4. PROJECTS enhanced to emphasize technologies matching the JD\n5. A PROFESSIONAL SUMMARY crafted specifically for this job\n\n✅ WHAT YOU MUST DO:\n\n**FOR SKILLS SECTION:**\n" ++
  "- Keep all original skills\n- ADD all missing skills from the gap analysis INTO the skills section\n- Organize skills by category (Programming Languages, Frameworks, Tools, Databases, Cloud, etc.)\n- Prioritize JD-required skills first\n\n**FOR EXPERIENCE SECTION:**\n- Keep all original job entries\n- REWRITE bullet points to use strong action verbs\n" ++
  "- Emphasize achievements that align with JD requirements\n- Add quantifiable metrics where implied (e.g., \"improved performance\" → \"improved performance by optimizing processes\")\n\n**FOR PROJECTS SECTION:**\n- Keep all original projects\n- Highlight technologies that match JD requirements\n- Add any missing JD technologies if the project work implies their use\n" ++
  "\n**FOR SUMMARY:**\n- Write a NEW 2-3 sentence professional summary\n- Mention the target job role\n- Highlight key skills that match the JD\n- Sound confident and professional\n\n📝 IMPORTANT RULES:\n1. NEVER remove original content - only enhance it\n2. ADD all missing skills from gap analysis to the Skills section\n" ++
  "3. Make the resume sound professional and ATS-optimized\n4. Use industry-standard terminology from the JD\n5. Keep formatting clean and organized"

/-- Returns the reference template structure. -/
def get_template_structure : String :=
  "\nOUTPUT FORMAT (follow exactly):\n\n=== HEADER ===\n[Full Name]\n[Email] | [Phone] | [LinkedIn] | [Location]\n\n=== PROFESSIONAL SUMMARY ===\n[2-3 powerful sentences targeting the specific job role, mentioning key matching skills]\n\n=== SKILLS ===\n**Programming Languages:** [list including any missing ones from JD]\n" ++
  "**Frameworks & Libraries:** [list including any missing ones from JD]\n**Tools & Technologies:** [list including any missing ones from JD]\n**Databases:** [list if applicable]\n**Cloud & DevOps:** [list if applicable]\n**Other:** [any remaining skills]\n\n=== PROFESSIONAL EXPERIENCE ===\n[Job Title] | [Company Name]\n" ++
  "[Duration] | [Location]\n• [Strong action verb] [achievement with JD-relevant keywords]\n• [Strong action verb] [quantified result if possible]\n• [Strong action verb] [technical achievement]\n\n=== PROJECTS ===\n[Project Name]\nTechnologies: [List including JD-relevant ones if implied]\n• [Enhanced description emphasizing JD-aligned achievements]\n" ++
  "\n=== EDUCATION ===\n[Degree] in [Field]\n[Institution] | [Graduation Date]\n\n=== CERTIFICATIONS ===\n[List all certifications]\n"

def get_enhancement_prompt_text (resume_json job_description job_position matched_skills missing_skills priority_skills recommendations template : String) : String :=
  ENHANCEMENT_SYSTEM_PROMPT ++
  "\n\n📋 ORIGINAL RESUME DATA:\n" ++
  resume_json ++
  "\n\n🎯 TARGET JOB:\nPosition: " ++
  job_position ++
  "\n\nJob Description:\n" ++
  job_description ++
  "\n\n📊 GAP ANALYSIS RESULTS:\n\n**Skills Already in Resume (Keep and Highlight):**\n" ++
  matched_skills ++
  "\n\n**MISSING SKILLS (MUST ADD TO SKILLS SECTION):**\n" ++
  missing_skills ++
  "\n\n**Priority Skills for this JD:**\n" ++
  priority_skills ++
  "\n\n**Improvement Recommendations to Apply:**\n" ++
  recommendations ++
  "\n\n" ++
  template ++
  "\n\n⚡ ACTION REQUIRED:\n1. ADD all missing skills (" ++
  missing_skills ++
  ") to the appropriate categories in the Skills section\n2. REWRITE the Professional Summary for the \"" ++
  job_position ++
  "\" role\n3. ENHANCE experience bullets with JD-aligned language\n4. EMPHASIZE matching technologies in Projects\n5. OUTPUT the complete enhanced resume in the format above\n\nBEGIN ENHANCED RESUME:"

/-- `get_enhancement_prompt`: formats the gap lists and fills the
f-string skeleton. -/
def get_enhancement_prompt (parsed_resume : ParsedResume)
    (job_description job_position : String) (gap_analysis : GapAnalysis) : String :=
  let resume_json := jsonDumps 0 parsed_resume.to_dict
  let missing_skills :=
    if !gap_analysis.missing_keywords.isEmpty then String.intercalate ", " gap_analysis.missing_keywords else "None"
  let matched_skills :=
    if !gap_analysis.matched_skills.isEmpty then String.intercalate ", " gap_analysis.matched_skills else "None"
  let priority_skills :=
    if !gap_analysis.priority_skills.isEmpty then String.intercalate ", " gap_analysis.priority_skills else "None"
  let recommendations :=
    if !gap_analysis.improvement_recommendations.isEmpty then
      String.intercalate "\n" (gap_analysis.improvement_recommendations.map fun r => "- " ++ r)
    else "None"
  let template := get_template_structure
  get_enhancement_prompt_text resume_json job_description job_position
    matched_skills missing_skills priority_skills recommendations template

/-- The response cleanup at the end of `reconstruct_resume` (lines
188-201): strip whitespace, then drop a leading code-fence line and a
trailing fence line when the response is fence-wrapped. -/
def clean_reconstructed (response : String) : String :=
  let reconstructed := pyStrip response
  if pyStartsWith reconstructed "```" then
    let lines := pySplitNl reconstructed
    let lines := if pyStartsWith (lines.headD "") "```" then lines.tail else lines
    let lines := if !lines.isEmpty && pyStrip (lines.getLastD "") == "```" then lines.dropLast else lines
    pyJoinNl lines
  else reconstructed

/-- `reconstruct_resume` (full mode): one gateway call on the enhancement
prompt, then cleanup. -/
def reconstruct_resume (parsed_resume : ParsedResume) (job_description job_position : String)
    (gap_analysis : GapAnalysis) (provider model : String) (env : AIEnv) : String × AIEnv :=
  let prompt := get_enhancement_prompt parsed_resume job_description job_position gap_analysis
  let (response, env1) := get_ai_response prompt provider model env
  (clean_reconstructed response, env1)

/-- Result dictionary of `validate_reconstruction`. -/
structure ValidationResult where
  valid : Bool
  warnings : List String
  original_name : String
  original_email : String
  original_skills_count : Nat
  original_experience_count : Nat
deriving DecidableEq

/-- `validate_reconstruction`: three case-insensitive substring checks,
each appending its warning; any warning flips `valid` to false. -/
def validate_reconstruction (original : ParsedResume) (reconstructed_text : String) :
    ValidationResult :=
  let nameWarn :=
    if original.name != "" && !pyIn (pyLower original.name) (pyLower reconstructed_text) then
      ["Original name may not be present in output"]
    else []
  let emailWarn :=
    if original.email != "" && !pyIn (pyLower original.email) (pyLower reconstructed_text) then
      ["Original email may not be present in output"]
    else []
  let skillsWarn :=
    if !pyIn "skills" (pyLower reconstructed_text) then
      ["Skills section may be missing"]
    else []
  let warnings := nameWarn ++ emailWarn ++ skillsWarn
  { valid := warnings.isEmpty, warnings,
    original_name := original.name, original_email := original.email,
    original_skills_count := original.skills.length,
    original_experience_count := original.experience.length }

/-- The canonical start-of-template marker of the output format. -/
def START_MARKER : String := "=== HEADER ==="

/-- First split of `cs` around an occurrence of the marker: the text
before it and the text from the marker on. -/
def findMarkerSplit (cs : List Char) : Option (List Char × List Char) :=
  if charsPrefix START_MARKER.data cs then some ([], cs)
  else
    match cs with
    | [] => none
    | c :: t =>
      match findMarkerSplit t with
      | some (a, b) => some (c :: a, b)
      | none => none

/-- Lenient GapAnalysis extraction used by the modelled fast mode: typed
fields where the decoded value provides them, empty fields otherwise
(the Gap Analyzer's silent-degradation contract, spec section 4.3). -/
def gapFromJson (j : Json) : GapAnalysis :=
  let grab := fun (k : String) =>
    match j with
    | .obj kvs =>
      match asStrList (dictGetD kvs k (.arr [])) with
      | .ok l => l
      | .error _ => []
    | _ => []
  { missing_keywords := grab "missing_keywords",
    weak_sections := grab "weak_sections",
    improvement_recommendations := grab "improvement_recommendations",
    priority_skills := grab "priority_skills",
    jd_keywords := grab "jd_keywords",
    matched_skills := grab "matched_skills" }

/-- Modelled from the spec: `reconstruct_resume_fast` is imported by
`routers/reconstruction.py` from `services.resume_reconstructor` but its
definition is not among the provided sources.  Per the spec (section 4.4
fast mode, section 7, section 8 and the glossary), it folds gap analysis
and reconstruction into a single combined model call: the combined
prompt carries both the gap-analysis task and the enhancement task; the
single response is expected to hold the gap-analysis JSON followed by
the template block; the gap portion is decoded with the Gap Analyzer's
lenient extraction (silent degradation on bad JSON) and the resume
portion is post-processed per section 4.4: code fences stripped and any
preamble before the canonical start-of-template marker discarded
(best-effort: with no marker the fence-stripped text is passed through
whole). -/
def reconstruct_resume_fast (parsed_resume : ParsedResume)
    (job_description job_position provider model : String) (env : AIEnv) :
    (GapAnalysis × String) × AIEnv :=
  let prompt :=
    GapAnalyzer.get_gap_analysis_prompt parsed_resume job_description job_position ++
    "\n\nAfter the JSON, produce the enhanced resume.\n\n" ++
    ENHANCEMENT_SYSTEM_PROMPT ++ "\n" ++ get_template_structure ++
    "\nBEGIN ENHANCED RESUME:"
  let (response, env1) := get_ai_response prompt provider model env
  let cleaned := clean_reconstructed response
  let result :=
    match findMarkerSplit cleaned.data with
    | some (pre, post) =>
      (gapFromJson (GapAnalyzer.parse_json_safely (String.mk pre)), String.mk post)
    | none =>
      (gapFromJson (GapAnalyzer.parse_json_safely cleaned), cleaned)
  (result, env1)

end Reconstructor

/-! ## Session Cache (`services/session_cache.py`) -/

namespace SessionCache

/-- Cached data from a previous analysis/parse.  `created_at` is a
rational timestamp (Python's `time.time()` float). -/
structure CachedSession where
  cv_text : String
  parsed_resume : ParsedResume
  file_hash : String
  created_at : ℚ
  job_description : String := ""
  job_position : String := ""
deriving DecidableEq

/-- The in-memory cache keyed by session id. -/
def Cache := List (String × CachedSession)

/-- Cache TTL: 30 minutes. -/
def CACHE_TTL : ℚ := 30 * 60

/-- `del _cache[id]` / absence of a key after deletion. -/
def cacheErase (session_id : String) (c : Cache) : Cache :=
  List.filter (fun kv => kv.1 != session_id) c

/-- `_cache.get(id)`. -/
def cacheLookup (c : Cache) (session_id : String) : Option CachedSession :=
  match c with
  | [] => none
  | (k, v) :: t => if k = session_id then some v else cacheLookup t session_id

/-- `_cleanup_expired`: drop every entry older than the TTL (runs on each
store). -/
def cleanup_expired (now : ℚ) (c : Cache) : Cache :=
  List.filter (fun kv => !decide (now - kv.2.created_at > CACHE_TTL)) c

/-- `store_session`: upsert the entry (with `created_at = now` and the
hash of the file bytes), then sweep expired entries.  The `md5` hash of
`hashlib` is an external collaborator passed as a function. -/
def store_session (md5 : List Nat → String) (session_id cv_text : String)
    (parsed_resume : ParsedResume) (file_bytes : List Nat)
    (job_description job_position : String) (now : ℚ) (c : Cache) : Cache :=
  cleanup_expired now
    ((session_id,
      { cv_text, parsed_resume, file_hash := md5 file_bytes,
        created_at := now, job_description, job_position }) ::
     cacheErase session_id c)

/-- `get_session`: miss on absence; on TTL expiry delete the entry as part
of the lookup and miss; otherwise hit.  Returns the updated store. -/
def get_session (session_id : String) (now : ℚ) (c : Cache) :
    Option CachedSession × Cache :=
  match cacheLookup c session_id with
  | none => (none, c)
  | some s =>
    if now - s.created_at > CACHE_TTL then (none, cacheErase session_id c)
    else (some s, c)

end SessionCache

/-! ## Object identity of `ParsedResume` through downstream calls.

Python passes the caller's `ParsedResume` object by reference.  The
bodies of `analyze_gaps` (gap_analyzer.py 89-121), `reconstruct_resume`
(resume_reconstructor.py 158-201) and `validate_reconstruction`
(resume_reconstructor.py 204-236) contain no assignment to any of its
fields and no mutating method call (`append`/`pop`/`clear`/`sort`) on it
or on its members: they read it only through `to_dict()`, `len()`,
`.lower()` and field access.  The wrappers below return the callee-held
object next to each result so that its preservation is a stated
property rather than an artefact left implicit. -/

/-- `analyze_gaps` together with the `ParsedResume` object the callee
held when it returned. -/
def analyze_gaps_obj (r : ParsedResume) (jd jp provider model : String) (env : AIEnv) :
    (Except PyErr GapAnalysis × AIEnv) × ParsedResume :=
  (GapAnalyzer.analyze_gaps r jd jp provider model env, r)

/-- `reconstruct_resume` together with the callee-held `ParsedResume`. -/
def reconstruct_resume_obj (r : ParsedResume) (jd jp : String) (g : GapAnalysis)
    (provider model : String) (env : AIEnv) : (String × AIEnv) × ParsedResume :=
  (Reconstructor.reconstruct_resume r jd jp g provider model env, r)

/-- `validate_reconstruction` together with the callee-held
`ParsedResume`. -/
def validate_reconstruction_obj (r : ParsedResume) (t : String) :
    Reconstructor.ValidationResult × ParsedResume :=
  (Reconstructor.validate_reconstruction r t, r)

end ATS

open ATS

/-! ## Helper lemmas -/

theorem pyIn_empty_needle (hay : String) : pyIn "" hay = true := by
  show charsContains hay.data [] = true
  cases hay.data with
  | nil => rfl
  | cons c t => simp [charsContains, charsPrefix]

theorem pyLower_empty_iff (s : String) : pyLower s = "" ↔ s = "" := by
  cases s with
  | mk data =>
    cases data with
    | nil => simp [pyLower]
    | cons c t =>
      constructor
      · intro h
        exact absurd (congrArg String.data h) (by simp [pyLower])
      · intro h
        exact absurd (congrArg String.data h) (by simp)

theorem isEmpty_false_of_mem {α : Type} {a : α} {l : List α} (h : a ∈ l) :
    l.isEmpty = false := by
  cases l with
  | nil => cases h
  | cons x t => rfl

theorem cacheLookup_erase (session_id : String) (c : SessionCache.Cache) :
    SessionCache.cacheLookup (SessionCache.cacheErase session_id c) session_id = none := by
  induction c with
  | nil => rfl
  | cons kv t ih =>
    by_cases h : kv.1 = session_id
    · simpa [SessionCache.cacheErase, List.filter_cons, h] using ih
    · simpa [SessionCache.cacheErase, List.filter_cons, h, SessionCache.cacheLookup] using ih

/-! ## Claims -/

/-- C5: a session stored at time `T` and looked up at any time strictly
later than `T + TTL` (TTL = 30 minutes) is a miss; the lookup deletes
the entry from the store, so a second lookup of the same id is a miss
as well - eviction is permanent. -/
theorem sessionCache_ttl_permanent_eviction
    (md5 : List Nat → String) (session_id cv_text : String) (parsed_resume : ParsedResume)
    (file_bytes : List Nat) (job_description job_position : String)
    (T t : ℚ) (c : SessionCache.Cache) (h : t - T > SessionCache.CACHE_TTL) :
    (SessionCache.get_session session_id t
      (SessionCache.store_session md5 session_id cv_text parsed_resume file_bytes
        job_description job_position T c)).1 = none ∧
    SessionCache.cacheLookup
      (SessionCache.get_session session_id t
        (SessionCache.store_session md5 session_id cv_text parsed_resume file_bytes
          job_description job_position T c)).2 session_id = none ∧
    (SessionCache.get_session session_id t
      (SessionCache.get_session session_id t
        (SessionCache.store_session md5 session_id cv_text parsed_resume file_bytes
          job_description job_position T c)).2).1 = none := by
  set e : SessionCache.CachedSession :=
    { cv_text := cv_text, parsed_resume := parsed_resume, file_hash := md5 file_bytes,
      created_at := T, job_description := job_description, job_position := job_position } with he
  have h0 : ¬ (SessionCache.CACHE_TTL < 0) := by norm_num [SessionCache.CACHE_TTL]
  have hstore : SessionCache.store_session md5 session_id cv_text parsed_resume file_bytes
      job_description job_position T c =
      (session_id, e) :: SessionCache.cleanup_expired T (SessionCache.cacheErase session_id c) := by
    simp [SessionCache.store_session, SessionCache.cleanup_expired, List.filter_cons, he, h0]
  have hlook : SessionCache.cacheLookup
      (SessionCache.store_session md5 session_id cv_text parsed_resume file_bytes
        job_description job_position T c) session_id = some e := by
    rw [hstore]; simp [SessionCache.cacheLookup]
  have hexp : (t - e.created_at > SessionCache.CACHE_TTL) := by simpa [he] using h
  have hget1 : SessionCache.get_session session_id t
      (SessionCache.store_session md5 session_id cv_text parsed_resume file_bytes
        job_description job_position T c) =
      (none, SessionCache.cacheErase session_id
        (SessionCache.store_session md5 session_id cv_text parsed_resume file_bytes
          job_description job_position T c)) := by
    simp [SessionCache.get_session, hlook, hexp]
  refine ⟨by rw [hget1], ?_, ?_⟩
  · rw [hget1]
    exact cacheLookup_erase _ _
  · rw [hget1]
    simp [SessionCache.get_session, cacheLookup_erase]

/-- C5 witness at a concrete store and query time. -/
theorem sessionCache_ttl_permanent_eviction_witness :
    (SessionCache.get_session "sid" 1801
      (SessionCache.store_session (fun _ => "h") "sid" "cv" {} [1, 2] "" "" 0 [])).1 = none ∧
    SessionCache.cacheLookup
      (SessionCache.get_session "sid" 1801
        (SessionCache.store_session (fun _ => "h") "sid" "cv" {} [1, 2] "" "" 0 [])).2 "sid" = none ∧
    (SessionCache.get_session "sid" 1801
      (SessionCache.get_session "sid" 1801
        (SessionCache.store_session (fun _ => "h") "sid" "cv" {} [1, 2] "" "" 0 [])).2).1 = none :=
  sessionCache_ttl_permanent_eviction (fun _ => "h") "sid" "cv" {} [1, 2] "" "" 0 1801 []
    (by norm_num [SessionCache.CACHE_TTL])

/-- C6: with both identity fields set, a reconstruction containing the
name, the email and a skills marker (case-insensitively) validates with
`valid = true` and no warnings; and whenever the reconstruction lacks
the original email substring, a warning mentioning the email is emitted
and `valid = false`. -/
theorem validate_identity_checks (r : ParsedResume) (t : String) :
    (r.name ≠ "" → r.email ≠ "" →
      pyIn (pyLower r.name) (pyLower t) = true →
      pyIn (pyLower r.email) (pyLower t) = true →
      pyIn "skills" (pyLower t) = true →
      (Reconstructor.validate_reconstruction r t).valid = true ∧
      (Reconstructor.validate_reconstruction r t).warnings = []) ∧
    (pyIn (pyLower r.email) (pyLower t) = false →
      (∃ w ∈ (Reconstructor.validate_reconstruction r t).warnings, pyIn "email" w = true) ∧
      (Reconstructor.validate_reconstruction r t).valid = false) := by
  constructor
  · intro _hn _he h1 h2 h3
    constructor <;> simp [Reconstructor.validate_reconstruction, h1, h2, h3]
  · intro h
    have hne : r.email ≠ "" := by
      intro h0
      rw [h0, (pyLower_empty_iff "").mpr rfl, pyIn_empty_needle] at h
      cases h
    have hbe : (r.email != "") = true := by simpa using hne
    have hmem : "Original email may not be present in output" ∈
        (Reconstructor.validate_reconstruction r t).warnings := by
      simp [Reconstructor.validate_reconstruction, hbe, h]
    refine ⟨⟨_, hmem, by decide⟩, ?_⟩
    have hv : (Reconstructor.validate_reconstruction r t).valid =
        (Reconstructor.validate_reconstruction r t).warnings.isEmpty := rfl
    rw [hv, isEmpty_false_of_mem hmem]

/-- C6 witness at concrete identity fields and reconstructions. -/
theorem validate_identity_checks_witness :
    ((Reconstructor.validate_reconstruction { name := "John Doe", email := "jd@x.co" }
        "JOHN DOE | jd@X.co\n=== SKILLS ===\nC").valid = true ∧
      (Reconstructor.validate_reconstruction { name := "John Doe", email := "jd@x.co" }
        "JOHN DOE | jd@X.co\n=== SKILLS ===\nC").warnings = []) ∧
    ((∃ w ∈ (Reconstructor.validate_reconstruction { name := "John Doe", email := "jd@x.co" }
        "no contact details here").warnings, pyIn "email" w = true) ∧
      (Reconstructor.validate_reconstruction { name := "John Doe", email := "jd@x.co" }
        "no contact details here").valid = false) :=
  ⟨(validate_identity_checks { name := "John Doe", email := "jd@x.co" }
      "JOHN DOE | jd@X.co\n=== SKILLS ===\nC").1
    (by decide) (by decide) (by decide) (by decide) (by decide),
   (validate_identity_checks { name := "John Doe", email := "jd@x.co" }
      "no contact details here").2 (by decide)⟩

/-- C10: with empty identity fields `validate_reconstruction` performs no
identity checks: any text containing "skills" case-insensitively
validates cleanly, and neither identity warning is ever emitted. -/
theorem validate_skips_empty_identity (r : ParsedResume) (t : String)
    (hn : r.name = "") (he : r.email = "") :
    (pyIn "skills" (pyLower t) = true →
      (Reconstructor.validate_reconstruction r t).valid = true ∧
      (Reconstructor.validate_reconstruction r t).warnings = []) ∧
    "Original name may not be present in output" ∉
      (Reconstructor.validate_reconstruction r t).warnings ∧
    "Original email may not be present in output" ∉
      (Reconstructor.validate_reconstruction r t).warnings := by
  refine ⟨fun hs => ?_, ?_, ?_⟩
  · constructor <;> simp [Reconstructor.validate_reconstruction, hn, he, hs]
  · simp [Reconstructor.validate_reconstruction, hn, he]
  · simp [Reconstructor.validate_reconstruction, hn, he]

/-- C10 witness on a concrete empty-identity resume. -/
theorem validate_skips_empty_identity_witness :
    ((pyIn "skills" (pyLower "My SKILLS are many") = true →
      (Reconstructor.validate_reconstruction {} "My SKILLS are many").valid = true ∧
      (Reconstructor.validate_reconstruction {} "My SKILLS are many").warnings = []) ∧
    "Original name may not be present in output" ∉
      (Reconstructor.validate_reconstruction {} "My SKILLS are many").warnings ∧
    "Original email may not be present in output" ∉
      (Reconstructor.validate_reconstruction {} "My SKILLS are many").warnings) ∧
    pyIn "skills" (pyLower "My SKILLS are many") = true :=
  ⟨validate_skips_empty_identity {} "My SKILLS are many" rfl rfl, by decide⟩

/-- C9: the downstream operations return the very `ParsedResume` value
the caller passed in, every field unchanged, for every model response;
`validate_reconstruction` moreover echoes the original identity fields
and counts unmodified. -/
theorem downstream_preserve_parsed_resume (r : ParsedResume) (jd jp provider model : String)
    (g : GapAnalysis) (env : AIEnv) (t : String) :
    (analyze_gaps_obj r jd jp provider model env).2 = r ∧
    (reconstruct_resume_obj r jd jp g provider model env).2 = r ∧
    (validate_reconstruction_obj r t).2 = r ∧
    (Reconstructor.validate_reconstruction r t).original_name = r.name ∧
    (Reconstructor.validate_reconstruction r t).original_email = r.email ∧
    (Reconstructor.validate_reconstruction r t).original_skills_count = r.skills.length ∧
    (Reconstructor.validate_reconstruction r t).original_experience_count = r.experience.length :=
  ⟨rfl, rfl, rfl, rfl, rfl, rfl, rfl⟩

/-- C1: the modelled fast mode returns the pair (gap analysis,
reconstructed text) out of a single gateway call, one fewer than the
two calls used by running `analyze_gaps` and then full-mode
`reconstruct_resume` on the same gateway. -/
theorem reconstructFast_single_roundtrip (r : ParsedResume) (jd jp provider model : String)
    (g : GapAnalysis) (env : AIEnv) :
    (Reconstructor.reconstruct_resume_fast r jd jp provider model env).2.calls = env.calls + 1 ∧
    (Reconstructor.reconstruct_resume r jd jp g provider model
      (GapAnalyzer.analyze_gaps r jd jp provider model env).2).2.calls = env.calls + 2 := by
  constructor
  · simp [Reconstructor.reconstruct_resume_fast, get_ai_response]
  · simp [Reconstructor.reconstruct_resume, GapAnalyzer.analyze_gaps, get_ai_response]

/-! ## Well-typed decoded objects and extraction lemmas (for C2, C3, C7) -/

def isStrJson : Json → Bool
  | .str _ => true
  | _ => false

def isStrOpt : Option Json → Bool
  | none => true
  | some j => isStrJson j

def isStrList : Json → Bool
  | .arr xs => xs.all isStrJson
  | _ => false

def isStrListOpt : Option Json → Bool
  | none => true
  | some j => isStrList j

def isEntryListOptBy (p : Json → Bool) : Option Json → Bool
  | none => true
  | some (.arr xs) => xs.all p
  | some _ => false

/-- An experience dict whose present fields have the expected types. -/
def isExpObj : Json → Bool
  | .obj kvs =>
    isStrOpt (lookupLast kvs "company") &&
    (isStrOpt (lookupLast kvs "job_title") &&
    (isStrOpt (lookupLast kvs "duration") &&
    (isStrOpt (lookupLast kvs "location") &&
    isStrListOpt (lookupLast kvs "responsibilities"))))
  | _ => false

def isProjObj : Json → Bool
  | .obj kvs =>
    isStrOpt (lookupLast kvs "name") &&
    (isStrOpt (lookupLast kvs "description") &&
    (isStrListOpt (lookupLast kvs "technologies") &&
    isStrListOpt (lookupLast kvs "highlights")))
  | _ => false

def isEduObj : Json → Bool
  | .obj kvs =>
    isStrOpt (lookupLast kvs "institution") &&
    (isStrOpt (lookupLast kvs "degree") &&
    (isStrOpt (lookupLast kvs "field_of_study") &&
    (isStrOpt (lookupLast kvs "graduation_date") &&
    isStrOpt (lookupLast kvs "gpa"))))
  | _ => false

/-- A parser response object whose present fields all have the shapes the
schema demands (absent fields are fine - they default). -/
def wellTypedResumeObj (kvs : List (String × Json)) : Bool :=
  isStrOpt (lookupLast kvs "name") &&
  (isStrOpt (lookupLast kvs "email") &&
  (isStrOpt (lookupLast kvs "phone") &&
  (isStrOpt (lookupLast kvs "linkedin") &&
  (isStrOpt (lookupLast kvs "location") &&
  (isStrOpt (lookupLast kvs "summary") &&
  (isStrListOpt (lookupLast kvs "skills") &&
  (isStrListOpt (lookupLast kvs "certifications") &&
  (isStrListOpt (lookupLast kvs "languages") &&
  (isEntryListOptBy isExpObj (lookupLast kvs "experience") &&
  (isEntryListOptBy isProjObj (lookupLast kvs "projects") &&
  isEntryListOptBy isEduObj (lookupLast kvs "education")))))))))))

/-- A gap-analysis response object whose present fields are string
arrays. -/
def wellTypedGapObj (kvs : List (String × Json)) : Bool :=
  isStrListOpt (lookupLast kvs "missing_keywords") &&
  (isStrListOpt (lookupLast kvs "weak_sections") &&
  (isStrListOpt (lookupLast kvs "improvement_recommendations") &&
  (isStrListOpt (lookupLast kvs "priority_skills") &&
  (isStrListOpt (lookupLast kvs "jd_keywords") &&
  isStrListOpt (lookupLast kvs "matched_skills")))))

theorem exBind_noParse {α β : Type} {x : Except PyErr α} {f : α → Except PyErr β}
    (hx : x ≠ .error .parseErr) (hf : ∀ a, f a ≠ .error .parseErr) :
    x >>= f ≠ .error .parseErr := by
  cases x with
  | error e => simpa [Bind.bind, Except.bind] using hx
  | ok a => simpa [Bind.bind, Except.bind] using hf a

theorem asStr_noParse (j : Json) : asStr j ≠ .error .parseErr := by
  cases j <;> simp [asStr]

theorem exMapM_noParse {α β : Type} {f : α → Except PyErr β}
    (hf : ∀ x, f x ≠ .error .parseErr) (xs : List α) :
    exMapM f xs ≠ .error .parseErr := by
  induction xs with
  | nil => simp [exMapM]
  | cons x t ih =>
    simp only [exMapM]
    cases hfx : f x with
    | error e =>
      have := hf x
      rw [hfx] at this
      simpa using this
    | ok b =>
      cases hmt : exMapM f t with
      | error e =>
        rw [hmt] at ih
        simpa using ih
      | ok bs => simp

theorem asStrList_noParse (j : Json) : asStrList j ≠ .error .parseErr := by
  cases j with
  | arr xs => exact exMapM_noParse asStr_noParse xs
  | null => simp [asStrList]
  | bool b => simp [asStrList]
  | num l => simp [asStrList]
  | str s => simp [asStrList]
  | obj kvs => simp [asStrList]

theorem asObjMembers_noParse (j : Json) : asObjMembers j ≠ .error .parseErr := by
  cases j <;> simp [asObjMembers]

theorem pyElems_noParse (j : Json) : pyElems j ≠ .error .parseErr := by
  cases j <;> simp [pyElems]

theorem buildExperience_noParse (j : Json) :
    ResumeParser.buildExperience j ≠ .error .parseErr := by
  unfold ResumeParser.buildExperience
  apply exBind_noParse (asObjMembers_noParse j); intro kvs
  apply exBind_noParse (asStr_noParse _); intro company
  apply exBind_noParse (asStr_noParse _); intro job_title
  apply exBind_noParse (asStr_noParse _); intro duration
  apply exBind_noParse (asStr_noParse _); intro location
  apply exBind_noParse (asStrList_noParse _); intro responsibilities
  simp

theorem buildProject_noParse (j : Json) :
    ResumeParser.buildProject j ≠ .error .parseErr := by
  unfold ResumeParser.buildProject
  apply exBind_noParse (asObjMembers_noParse j); intro kvs
  apply exBind_noParse (asStr_noParse _); intro name
  apply exBind_noParse (asStr_noParse _); intro description
  apply exBind_noParse (asStrList_noParse _); intro technologies
  apply exBind_noParse (asStrList_noParse _); intro highlights
  simp

theorem buildEducation_noParse (j : Json) :
    ResumeParser.buildEducation j ≠ .error .parseErr := by
  unfold ResumeParser.buildEducation
  apply exBind_noParse (asObjMembers_noParse j); intro kvs
  apply exBind_noParse (asStr_noParse _); intro institution
  apply exBind_noParse (asStr_noParse _); intro degree
  apply exBind_noParse (asStr_noParse _); intro field_of_study
  apply exBind_noParse (asStr_noParse _); intro graduation_date
  apply exBind_noParse (asStr_noParse _); intro gpa
  simp

theorem buildParsedResume_noParse (kvs : List (String × Json)) :
    ResumeParser.buildParsedResume kvs ≠ .error .parseErr := by
  unfold ResumeParser.buildParsedResume
  apply exBind_noParse (asStr_noParse _); intro name
  apply exBind_noParse (asStr_noParse _); intro email
  apply exBind_noParse (asStr_noParse _); intro phone
  apply exBind_noParse (asStr_noParse _); intro linkedin
  apply exBind_noParse (asStr_noParse _); intro location
  apply exBind_noParse (asStr_noParse _); intro summary
  apply exBind_noParse (asStrList_noParse _); intro skills
  apply exBind_noParse (asStrList_noParse _); intro certifications
  apply exBind_noParse (asStrList_noParse _); intro languages
  apply exBind_noParse (pyElems_noParse _); intro expItems
  apply exBind_noParse (exMapM_noParse buildExperience_noParse expItems); intro experience
  apply exBind_noParse (pyElems_noParse _); intro projItems
  apply exBind_noParse (exMapM_noParse buildProject_noParse projItems); intro projects
  apply exBind_noParse (pyElems_noParse _); intro eduItems
  apply exBind_noParse (exMapM_noParse buildEducation_noParse eduItems); intro education
  simp

theorem isStrJson_asStr {j : Json} (h : isStrJson j = true) : ∃ s, asStr j = .ok s := by
  cases j with
  | str s => exact ⟨s, rfl⟩
  | null => exact absurd h (by simp [isStrJson])
  | bool b => exact absurd h (by simp [isStrJson])
  | num l => exact absurd h (by simp [isStrJson])
  | arr xs => exact absurd h (by simp [isStrJson])
  | obj kvs => exact absurd h (by simp [isStrJson])

theorem asStr_getD_ok {o : Option Json} (h : isStrOpt o = true) :
    ∃ s, asStr (o.getD (.str "")) = .ok s ∧ (o = none → s = "") := by
  cases o with
  | none => exact ⟨"", rfl, fun _ => rfl⟩
  | some j =>
    obtain ⟨s, hs⟩ := isStrJson_asStr (by simpa [isStrOpt] using h)
    exact ⟨s, by simpa using hs, fun hx => Option.noConfusion hx⟩

theorem exMapM_asStr_ok {xs : List Json} (h : xs.all isStrJson = true) :
    ∃ l, exMapM asStr xs = .ok l := by
  induction xs with
  | nil => exact ⟨[], rfl⟩
  | cons x t ih =>
    simp only [List.all_cons, Bool.and_eq_true] at h
    obtain ⟨s, hs⟩ := isStrJson_asStr h.1
    obtain ⟨l, hl⟩ := ih h.2
    exact ⟨s :: l, by simp [exMapM, hs, hl]⟩

theorem asStrList_getD_ok {o : Option Json} (h : isStrListOpt o = true) :
    ∃ l, asStrList (o.getD (.arr [])) = .ok l ∧ (o = none → l = []) := by
  cases o with
  | none => exact ⟨[], rfl, fun _ => rfl⟩
  | some j =>
    cases j with
    | arr xs =>
      obtain ⟨l, hl⟩ := exMapM_asStr_ok (by simpa [isStrListOpt, isStrList] using h)
      exact ⟨l, by simpa [asStrList] using hl, fun hx => Option.noConfusion hx⟩
    | null => exact absurd h (by simp [isStrListOpt, isStrList])
    | bool b => exact absurd h (by simp [isStrListOpt, isStrList])
    | num l => exact absurd h (by simp [isStrListOpt, isStrList])
    | str s => exact absurd h (by simp [isStrListOpt, isStrList])
    | obj kvs => exact absurd h (by simp [isStrListOpt, isStrList])

theorem exMapM_ok_of_all {β : Type} {f : Json → Except PyErr β} {p : Json → Bool}
    (hf : ∀ x, p x = true → ∃ y, f x = .ok y) {xs : List Json} (h : xs.all p = true) :
    ∃ l, exMapM f xs = .ok l := by
  induction xs with
  | nil => exact ⟨[], rfl⟩
  | cons x t ih =>
    simp only [List.all_cons, Bool.and_eq_true] at h
    obtain ⟨y, hy⟩ := hf x h.1
    obtain ⟨l, hl⟩ := ih h.2
    exact ⟨y :: l, by simp [exMapM, hy, hl]⟩

theorem buildExperience_ok {j : Json} (h : isExpObj j = true) :
    ∃ e, ResumeParser.buildExperience j = .ok e := by
  cases j with
  | obj kvs =>
    simp only [isExpObj, Bool.and_eq_true] at h
    obtain ⟨h1, h2, h3, h4, h5⟩ := h
    obtain ⟨v1, e1, _⟩ := asStr_getD_ok h1
    obtain ⟨v2, e2, _⟩ := asStr_getD_ok h2
    obtain ⟨v3, e3, _⟩ := asStr_getD_ok h3
    obtain ⟨v4, e4, _⟩ := asStr_getD_ok h4
    obtain ⟨v5, e5, _⟩ := asStrList_getD_ok h5
    exact ⟨⟨v1, v2, v3, v4, v5⟩, by simp [ResumeParser.buildExperience, dictGetD, asObjMembers,
      e1, e2, e3, e4, e5, Bind.bind, Except.bind]⟩
  | null => exact absurd h (by simp [isExpObj])
  | bool b => exact absurd h (by simp [isExpObj])
  | num l => exact absurd h (by simp [isExpObj])
  | str s => exact absurd h (by simp [isExpObj])
  | arr xs => exact absurd h (by simp [isExpObj])

theorem buildProject_ok {j : Json} (h : isProjObj j = true) :
    ∃ e, ResumeParser.buildProject j = .ok e := by
  cases j with
  | obj kvs =>
    simp only [isProjObj, Bool.and_eq_true] at h
    obtain ⟨h1, h2, h3, h4⟩ := h
    obtain ⟨v1, e1, _⟩ := asStr_getD_ok h1
    obtain ⟨v2, e2, _⟩ := asStr_getD_ok h2
    obtain ⟨v3, e3, _⟩ := asStrList_getD_ok h3
    obtain ⟨v4, e4, _⟩ := asStrList_getD_ok h4
    exact ⟨⟨v1, v2, v3, v4⟩, by simp [ResumeParser.buildProject, dictGetD, asObjMembers,
      e1, e2, e3, e4, Bind.bind, Except.bind]⟩
  | null => exact absurd h (by simp [isProjObj])
  | bool b => exact absurd h (by simp [isProjObj])
  | num l => exact absurd h (by simp [isProjObj])
  | str s => exact absurd h (by simp [isProjObj])
  | arr xs => exact absurd h (by simp [isProjObj])

theorem buildEducation_ok {j : Json} (h : isEduObj j = true) :
    ∃ e, ResumeParser.buildEducation j = .ok e := by
  cases j with
  | obj kvs =>
    simp only [isEduObj, Bool.and_eq_true] at h
    obtain ⟨h1, h2, h3, h4, h5⟩ := h
    obtain ⟨v1, e1, _⟩ := asStr_getD_ok h1
    obtain ⟨v2, e2, _⟩ := asStr_getD_ok h2
    obtain ⟨v3, e3, _⟩ := asStr_getD_ok h3
    obtain ⟨v4, e4, _⟩ := asStr_getD_ok h4
    obtain ⟨v5, e5, _⟩ := asStr_getD_ok h5
    exact ⟨⟨v1, v2, v3, v4, v5⟩, by simp [ResumeParser.buildEducation, dictGetD, asObjMembers,
      e1, e2, e3, e4, e5, Bind.bind, Except.bind]⟩
  | null => exact absurd h (by simp [isEduObj])
  | bool b => exact absurd h (by simp [isEduObj])
  | num l => exact absurd h (by simp [isEduObj])
  | str s => exact absurd h (by simp [isEduObj])
  | arr xs => exact absurd h (by simp [isEduObj])

theorem entryList_ok {β : Type} {p : Json → Bool} {f : Json → Except PyErr β}
    (hf : ∀ x, p x = true → ∃ y, f x = .ok y) {o : Option Json}
    (h : isEntryListOptBy p o = true) :
    ∃ items l, pyElems (o.getD (.arr [])) = .ok items ∧ exMapM f items = .ok l ∧
      (o = none → l = []) := by
  cases o with
  | none => exact ⟨[], [], rfl, rfl, fun _ => rfl⟩
  | some j =>
    cases j with
    | arr xs =>
      obtain ⟨l, hl⟩ := exMapM_ok_of_all hf (by simpa [isEntryListOptBy] using h)
      exact ⟨xs, l, rfl, hl, fun hx => Option.noConfusion hx⟩
    | null => exact absurd h (by simp [isEntryListOptBy])
    | bool b => exact absurd h (by simp [isEntryListOptBy])
    | num l => exact absurd h (by simp [isEntryListOptBy])
    | str s => exact absurd h (by simp [isEntryListOptBy])
    | obj kvs => exact absurd h (by simp [isEntryListOptBy])

theorem buildParsedResume_spec {kvs : List (String × Json)} (h : wellTypedResumeObj kvs = true) :
    ∃ r, ResumeParser.buildParsedResume kvs = .ok r ∧
      (lookupLast kvs "skills" = none → r.skills = []) ∧
      (lookupLast kvs "name" = none → r.name = "") ∧
      (lookupLast kvs "email" = none → r.email = "") ∧
      (lookupLast kvs "phone" = none → r.phone = "") ∧
      (lookupLast kvs "linkedin" = none → r.linkedin = "") ∧
      (lookupLast kvs "location" = none → r.location = "") ∧
      (lookupLast kvs "summary" = none → r.summary = "") ∧
      (lookupLast kvs "certifications" = none → r.certifications = []) ∧
      (lookupLast kvs "languages" = none → r.languages = []) ∧
      (lookupLast kvs "experience" = none → r.experience = []) ∧
      (lookupLast kvs "projects" = none → r.projects = []) ∧
      (lookupLast kvs "education" = none → r.education = []) := by
  simp only [wellTypedResumeObj, Bool.and_eq_true] at h
  obtain ⟨hname, hemail, hphone, hlink, hloc, hsum, hskills, hcert, hlang, hexp, hproj, hedu⟩ := h
  obtain ⟨vn, en, dn⟩ := asStr_getD_ok hname
  obtain ⟨ve, ee, de⟩ := asStr_getD_ok hemail
  obtain ⟨vp, ep, dp⟩ := asStr_getD_ok hphone
  obtain ⟨vl, el, dl⟩ := asStr_getD_ok hlink
  obtain ⟨vlo, elo, dlo⟩ := asStr_getD_ok hloc
  obtain ⟨vs, es, ds⟩ := asStr_getD_ok hsum
  obtain ⟨vsk, esk, dsk⟩ := asStrList_getD_ok hskills
  obtain ⟨vc, ec, dc⟩ := asStrList_getD_ok hcert
  obtain ⟨vla, ela, dla⟩ := asStrList_getD_ok hlang
  obtain ⟨iex, vex, eexI, eexM, dex⟩ := entryList_ok (fun _ hx => buildExperience_ok hx) hexp
  obtain ⟨ipr, vpr, eprI, eprM, dpr⟩ := entryList_ok (fun _ hx => buildProject_ok hx) hproj
  obtain ⟨ied, ved, eedI, eedM, ded⟩ := entryList_ok (fun _ hx => buildEducation_ok hx) hedu
  refine ⟨⟨vn, ve, vp, vl, vlo, vs, vsk, vex, vpr, ved, vc, vla⟩, ?_,
    dsk, dn, de, dp, dl, dlo, ds, dc, dla, dex, dpr, ded⟩
  simp [ResumeParser.buildParsedResume, dictGetD, en, ee, ep, el, elo, es, esk, ec, ela,
    eexI, eexM, eprI, eprM, eedI, eedM, Bind.bind, Except.bind]

theorem buildGapAnalysis_ok {kvs : List (String × Json)} (h : wellTypedGapObj kvs = true) :
    ∃ g, GapAnalyzer.buildGapAnalysis (.obj kvs) = .ok g := by
  simp only [wellTypedGapObj, Bool.and_eq_true] at h
  obtain ⟨h1, h2, h3, h4, h5, h6⟩ := h
  obtain ⟨v1, e1, _⟩ := asStrList_getD_ok h1
  obtain ⟨v2, e2, _⟩ := asStrList_getD_ok h2
  obtain ⟨v3, e3, _⟩ := asStrList_getD_ok h3
  obtain ⟨v4, e4, _⟩ := asStrList_getD_ok h4
  obtain ⟨v5, e5, _⟩ := asStrList_getD_ok h5
  obtain ⟨v6, e6, _⟩ := asStrList_getD_ok h6
  exact ⟨⟨v1, v2, v3, v4, v5, v6⟩, by simp [GapAnalyzer.buildGapAnalysis, dictGetD, asObjMembers,
    e1, e2, e3, e4, e5, e6, Bind.bind, Except.bind]⟩

set_option maxHeartbeats 1600000 in

/-- Reduction equation for `parse_resume`: the gateway returns the next
scripted response and the prompt plays no further role. -/
theorem parse_resume_eq (resume_text provider model : String) (env : AIEnv) :
    ResumeParser.parse_resume resume_text provider model env =
      (ResumeParser.parse_resume_of_response (env.script env.calls),
       { script := env.script, calls := env.calls + 1 }) := rfl

theorem parse_resume_of_response_none {response : String}
    (h : ResumeParser.parse_json_safely response = none) :
    ResumeParser.parse_resume_of_response response = .error .parseErr := by
  unfold ResumeParser.parse_resume_of_response
  rw [h]

theorem parse_resume_of_response_some {response : String} {j : Json}
    (h : ResumeParser.parse_json_safely response = some j) :
    ResumeParser.parse_resume_of_response response = ResumeParser.parse_resume_of_data j := by
  unfold ResumeParser.parse_resume_of_response
  rw [h]

theorem parse_resume_of_data_falsy {j : Json} (hf : pyTruthy j = false) :
    ResumeParser.parse_resume_of_data j = .error .parseErr := by
  unfold ResumeParser.parse_resume_of_data
  rw [hf]
  rfl

theorem parse_resume_of_data_obj {kvs : List (String × Json)}
    (ht : pyTruthy (.obj kvs) = true) :
    ResumeParser.parse_resume_of_data (.obj kvs) = ResumeParser.buildParsedResume kvs := by
  unfold ResumeParser.parse_resume_of_data
  rw [ht]
  simp

theorem parse_resume_of_data_nonobj {j : Json} (ht : pyTruthy j = true)
    (hno : ∀ kvs, j ≠ .obj kvs) :
    ResumeParser.parse_resume_of_data j = .error .attrErr := by
  cases j with
  | obj kvs => exact absurd rfl (hno kvs)
  | null => rw [ResumeParser.parse_resume_of_data, ht] <;> simp
  | bool b => rw [ResumeParser.parse_resume_of_data, ht] <;> simp
  | num l => rw [ResumeParser.parse_resume_of_data, ht] <;> simp
  | str s => rw [ResumeParser.parse_resume_of_data, ht] <;> simp
  | arr xs => rw [ResumeParser.parse_resume_of_data, ht] <;> simp

/-- Reduction equation for `analyze_gaps`. -/
theorem analyze_gaps_eq (r : ParsedResume) (jd jp provider model : String) (env : AIEnv) :
    GapAnalyzer.analyze_gaps r jd jp provider model env =
      (GapAnalyzer.buildGapAnalysis (GapAnalyzer.parse_json_safely (env.script env.calls)),
       { script := env.script, calls := env.calls + 1 }) := rfl

/-- C2 counterexample: the response `"[]"` parses to a JSON list, on
which the field extraction `data.get(...)` raises `AttributeError` - so
`analyze_gaps` does not succeed structurally on every response. -/
theorem analyzeGaps_raises_on_nonobject :
    cleaned_json_loads "[]" = some (.arr []) ∧
    (GapAnalyzer.analyze_gaps {} "jd" "jp" "p" "m" { script := fun _ => "[]", calls := 0 }).1 =
      .error .attrErr :=
  ⟨rfl, rfl⟩

/-- C2 (amended): an unparseable response degrades silently to a
`GapAnalysis` with all six fields empty, and any response decoding to a
JSON object (its present gap fields being string arrays) is extracted
without raising; only a response decoding to a non-object JSON value
makes the extraction raise. -/
theorem analyzeGaps_structural_success (r : ParsedResume)
    (jd jp provider model : String) (env : AIEnv) :
    (cleaned_json_loads (env.script env.calls) = none →
      (GapAnalyzer.analyze_gaps r jd jp provider model env).1 =
        .ok { missing_keywords := [], weak_sections := [], improvement_recommendations := [],
              priority_skills := [], jd_keywords := [], matched_skills := [] }) ∧
    (∀ kvs, cleaned_json_loads (env.script env.calls) = some (.obj kvs) →
      wellTypedGapObj kvs = true →
      ∃ g, (GapAnalyzer.analyze_gaps r jd jp provider model env).1 = .ok g) := by
  constructor
  · intro h
    rw [analyze_gaps_eq]
    simp [GapAnalyzer.parse_json_safely, h]
    rfl
  · intro kvs hk hw
    obtain ⟨g, hg⟩ := buildGapAnalysis_ok hw
    refine ⟨g, ?_⟩
    rw [analyze_gaps_eq]
    simp [GapAnalyzer.parse_json_safely, hk, hg]

set_option maxHeartbeats 1600000 in
/-- C2 witness: a concrete unparseable response yields the all-empty
`GapAnalysis`. -/
theorem analyzeGaps_structural_success_witness :
    (GapAnalyzer.analyze_gaps {} "jd" "jp" "p" "m"
      { script := fun _ => "not json", calls := 0 }).1 =
      .ok { missing_keywords := [], weak_sections := [], improvement_recommendations := [],
            priority_skills := [], jd_keywords := [], matched_skills := [] } :=
  (analyzeGaps_structural_success {} "jd" "jp" "p" "m"
    { script := fun _ => "not json", calls := 0 }).1 rfl

/-- Follows the spec's words (section 4.2) rather than the code: the
claimed "permissive cleanup pass" also strips surrounding prose before
the first open brace and after the last close brace.  Defined only for
comparison with the code's cleanup, which strips code fences but never
prose. -/
def spec_cleanup (response : String) : String :=
  let r := pyStrip response
  let r := if pyStartsWith r "```json" then strDrop 7 r else r
  let r := if pyStartsWith r "```" then strDrop 3 r else r
  let r := if pyEndsWith r "```" then strDropRight 3 r else r
  String.mk
    (((r.data.dropWhile fun c => c != lbrace).reverse.dropWhile fun c => c != rbrace).reverse)

set_option maxHeartbeats 1600000 in
/-- C3 counterexample: two responses on which the claim's
"fails exactly when not valid JSON after cleanup" is false on the code.
`"\x7b\x7d"` is valid JSON as it stands, yet `parse_resume` raises its
parse failure (the `if not data` guard fires on the falsy empty dict);
and a response with prose around the JSON would be valid under the
claim's cleanup (which strips prose outside the outermost braces), yet
the code's cleanup strips only code fences, so `json.loads` fails and
`parse_resume` raises. -/
theorem parseResume_validjson_counterexample :
    cleaned_json_loads "\x7b\x7d" = some (.obj []) ∧
    (ResumeParser.parse_resume "txt" "p" "m"
      { script := fun _ => "\x7b\x7d", calls := 0 }).1 = .error .parseErr ∧
    json_loads (spec_cleanup "here you go: \x7b\x22name\x22: \x22A\x22\x7d done") =
      some (.obj [("name", .str "A")]) ∧
    (ResumeParser.parse_resume "txt" "p" "m"
      { script := fun _ => "here you go: \x7b\x22name\x22: \x22A\x22\x7d done", calls := 0 }).1 =
      .error .parseErr :=
  ⟨rfl, rfl, rfl, rfl⟩

/-- Characterization of the response-processing tail of `parse_resume`:
it yields the parse failure exactly on unparseable or falsy-decoding
responses. -/
theorem parse_resume_of_response_iff (response : String) :
    ResumeParser.parse_resume_of_response response = .error .parseErr ↔
      (ResumeParser.parse_json_safely response = none ∨
        ∃ j, ResumeParser.parse_json_safely response = some j ∧ pyTruthy j = false) := by
  cases hp : ResumeParser.parse_json_safely response with
  | none =>
    rw [parse_resume_of_response_none hp]
    exact iff_of_true rfl (Or.inl rfl)
  | some j =>
    rw [parse_resume_of_response_some hp]
    by_cases ht : pyTruthy j = true
    · have hRfalse : ¬((some j : Option Json) = none ∨
          ∃ j1, (some j : Option Json) = some j1 ∧ pyTruthy j1 = false) := by
        rintro (h0 | ⟨j1, hj1, hf1⟩)
        · exact Option.noConfusion h0
        · rw [← Option.some.inj hj1] at hf1
          rw [ht] at hf1
          exact Bool.noConfusion hf1
      cases j with
      | obj kvs =>
        rw [parse_resume_of_data_obj ht]
        exact iff_of_false (fun hL => buildParsedResume_noParse kvs hL) hRfalse
      | null =>
        rw [parse_resume_of_data_nonobj ht (fun kvs h => Json.noConfusion h)]
        exact iff_of_false (by simp) hRfalse
      | bool b =>
        rw [parse_resume_of_data_nonobj ht (fun kvs h => Json.noConfusion h)]
        exact iff_of_false (by simp) hRfalse
      | num l =>
        rw [parse_resume_of_data_nonobj ht (fun kvs h => Json.noConfusion h)]
        exact iff_of_false (by simp) hRfalse
      | str s =>
        rw [parse_resume_of_data_nonobj ht (fun kvs h => Json.noConfusion h)]
        exact iff_of_false (by simp) hRfalse
      | arr xs =>
        rw [parse_resume_of_data_nonobj ht (fun kvs h => Json.noConfusion h)]
        exact iff_of_false (by simp) hRfalse
    · have hf : pyTruthy j = false := by simpa using ht
      rw [parse_resume_of_data_falsy hf]
      exact iff_of_true rfl (Or.inr ⟨j, rfl, hf⟩)

/-- C3 (amended): `parse_resume` raises its parse failure exactly when
the cleaned response (code fences stripped; surrounding prose is not
stripped) is not valid JSON or decodes to a falsy JSON value; whenever
the cleaned response decodes to a truthy JSON object with well-typed
fields, it returns a `ParsedResume` without error. -/
theorem parseResume_parseerror_iff (resume_text provider model : String) (env : AIEnv) :
    ((ResumeParser.parse_resume resume_text provider model env).1 = .error .parseErr ↔
      (ResumeParser.parse_json_safely (env.script env.calls) = none ∨
        ∃ j, ResumeParser.parse_json_safely (env.script env.calls) = some j ∧
          pyTruthy j = false)) ∧
    (∀ kvs, ResumeParser.parse_json_safely (env.script env.calls) = some (.obj kvs) →
      pyTruthy (.obj kvs) = true → wellTypedResumeObj kvs = true →
      ∃ r, (ResumeParser.parse_resume resume_text provider model env).1 = .ok r) := by
  have heq : (ResumeParser.parse_resume resume_text provider model env).1 =
      ResumeParser.parse_resume_of_response (env.script env.calls) := by
    rw [parse_resume_eq]
  constructor
  · rw [heq]
    exact parse_resume_of_response_iff (env.script env.calls)
  · intro kvs hk htr hw
    obtain ⟨r, hok, _⟩ := buildParsedResume_spec hw
    refine ⟨r, ?_⟩
    rw [heq, parse_resume_of_response_some hk, parse_resume_of_data_obj htr, hok]


set_option maxHeartbeats 1600000 in
/-- C3 witness: a concrete truthy well-typed object parses without
error. -/
theorem parseResume_parseerror_iff_witness :
    ∃ r, (ResumeParser.parse_resume "txt" "p" "m"
      { script := fun _ => "\x7b\x22name\x22: \x22Bob\x22\x7d", calls := 0 }).1 = .ok r :=
  (parseResume_parseerror_iff "txt" "p" "m"
    { script := fun _ => "\x7b\x22name\x22: \x22Bob\x22\x7d", calls := 0 }).2
    [("name", .str "Bob")] rfl (by decide) (by decide)

set_option maxHeartbeats 1600000 in
/-- C7 counterexample: the response `"\x7b \x7d"` cleans to a JSON object
omitting `"skills"`, yet `parse_resume` raises (empty dict is falsy)
instead of returning a `ParsedResume` with empty skills. -/
theorem parse_skills_default_counterexample :
    cleaned_json_loads "\x7b \x7d" = some (.obj []) ∧
    lookupLast ([] : List (String × Json)) "skills" = none ∧
    (ResumeParser.parse_resume "txt" "p" "m"
      { script := fun _ => "\x7b \x7d", calls := 0 }).1 = .error .parseErr :=
  ⟨rfl, rfl, rfl⟩

set_option maxHeartbeats 2000000 in
/-- C7 (amended): for every response whose cleaned text is a non-empty
JSON object with well-typed present fields, each absent field defaults
to its empty value: omitted `"skills"` gives `skills = []`, and likewise
for every other field. -/
theorem parse_missing_fields_default (resume_text provider model : String) (env : AIEnv)
    (kvs : List (String × Json))
    (h1 : ResumeParser.parse_json_safely (env.script env.calls) = some (.obj kvs))
    (h2 : kvs ≠ []) (h3 : wellTypedResumeObj kvs = true) :
    ∃ r, (ResumeParser.parse_resume resume_text provider model env).1 = .ok r ∧
      (lookupLast kvs "skills" = none → r.skills = []) ∧
      (lookupLast kvs "name" = none → r.name = "") ∧
      (lookupLast kvs "email" = none → r.email = "") ∧
      (lookupLast kvs "phone" = none → r.phone = "") ∧
      (lookupLast kvs "linkedin" = none → r.linkedin = "") ∧
      (lookupLast kvs "location" = none → r.location = "") ∧
      (lookupLast kvs "summary" = none → r.summary = "") ∧
      (lookupLast kvs "certifications" = none → r.certifications = []) ∧
      (lookupLast kvs "languages" = none → r.languages = []) ∧
      (lookupLast kvs "experience" = none → r.experience = []) ∧
      (lookupLast kvs "projects" = none → r.projects = []) ∧
      (lookupLast kvs "education" = none → r.education = []) := by
  have htr : pyTruthy (.obj kvs) = true := by simpa [pyTruthy] using h2
  obtain ⟨r, hok, hds⟩ := buildParsedResume_spec h3
  refine ⟨r, ?_, hds⟩
  have heq : (ResumeParser.parse_resume resume_text provider model env).1 =
      ResumeParser.parse_resume_of_response (env.script env.calls) := by
    rw [parse_resume_eq]
  rw [heq, parse_resume_of_response_some h1, parse_resume_of_data_obj htr, hok]

set_option maxHeartbeats 1600000 in
/-- C7 witness: an object with only a name field defaults every other
field to its empty value. -/
theorem parse_missing_fields_default_witness :
    ∃ r, (ResumeParser.parse_resume "txt" "p" "m"
      { script := fun _ => "\x7b\x22name\x22: \x22A\x22\x7d", calls := 0 }).1 = .ok r ∧
      (lookupLast [("name", Json.str "A")] "skills" = none → r.skills = []) ∧
      (lookupLast [("name", Json.str "A")] "name" = none → r.name = "") ∧
      (lookupLast [("name", Json.str "A")] "email" = none → r.email = "") ∧
      (lookupLast [("name", Json.str "A")] "phone" = none → r.phone = "") ∧
      (lookupLast [("name", Json.str "A")] "linkedin" = none → r.linkedin = "") ∧
      (lookupLast [("name", Json.str "A")] "location" = none → r.location = "") ∧
      (lookupLast [("name", Json.str "A")] "summary" = none → r.summary = "") ∧
      (lookupLast [("name", Json.str "A")] "certifications" = none → r.certifications = []) ∧
      (lookupLast [("name", Json.str "A")] "languages" = none → r.languages = []) ∧
      (lookupLast [("name", Json.str "A")] "experience" = none → r.experience = []) ∧
      (lookupLast [("name", Json.str "A")] "projects" = none → r.projects = []) ∧
      (lookupLast [("name", Json.str "A")] "education" = none → r.education = []) :=
  parse_missing_fields_default "txt" "p" "m"
    { script := fun _ => "\x7b\x22name\x22: \x22A\x22\x7d", calls := 0 }
    [("name", .str "A")] rfl (List.cons_ne_nil _ _) (by decide)

/-! ## C4: full-mode post-processing (`reconstruct_resume` lines 188-201) -/

/-- Reduction equation for `reconstruct_resume`. -/
theorem reconstruct_resume_eq (r : ParsedResume) (jd jp : String) (g : GapAnalysis)
    (provider model : String) (env : AIEnv) :
    Reconstructor.reconstruct_resume r jd jp g provider model env =
      (Reconstructor.clean_reconstructed (env.script env.calls),
       { script := env.script, calls := env.calls + 1 }) := rfl

theorem str_data_append (a b : String) : (a ++ b).data = a.data ++ b.data := rfl

theorem dropWhile_cons_neg {p : Char → Bool} {c : Char} (cs : List Char) (h : p c = false) :
    List.dropWhile p (c :: cs) = c :: cs := by
  simp [List.dropWhile_cons, h]

theorem dropWhile_append_of_mem_neg {p : Char → Bool} {l1 : List Char} (l2 : List Char)
    (h : ∃ a ∈ l1, p a = false) :
    List.dropWhile p (l1 ++ l2) = List.dropWhile p l1 ++ l2 := by
  induction l1 with
  | nil =>
    obtain ⟨a, ha, _⟩ := h
    cases ha
  | cons d ds ih =>
    by_cases hd : p d = true
    · rw [List.cons_append, List.dropWhile_cons, List.dropWhile_cons]
      simp only [hd, if_true]
      apply ih
      obtain ⟨a, ha, hpa⟩ := h
      rcases List.mem_cons.mp ha with ha1 | ha1
      · rw [ha1] at hpa
        rw [hd] at hpa
        exact Bool.noConfusion hpa
      · exact ⟨a, ha1, hpa⟩
    · have hd1 : p d = false := by simpa using hd
      rw [List.cons_append, dropWhile_cons_neg _ hd1, dropWhile_cons_neg _ hd1, List.cons_append]

theorem charsPrefix_append_self (pre X : List Char) : charsPrefix pre (pre ++ X) = true := by
  induction pre with
  | nil => rfl
  | cons a as ih => simp [charsPrefix, ih]

theorem charsPrefix_cons_false {a b : Char} (hab : a ≠ b) (pre cs : List Char) :
    charsPrefix (a :: pre) (b :: cs) = false := by
  simp [charsPrefix, hab]

/-- Stripping a preamble-headed response: a non-whitespace head survives
the left strip, and the right strip stays inside the tail as long as the
tail holds a non-whitespace character. -/
theorem stripBy_preamble {c : Char} (cs Q : List Char) (hws : pyWs c = false)
    (hQ : ∃ a ∈ Q, pyWs a = false) :
    stripBy pyWs ((c :: cs) ++ Q) = (c :: cs) ++ rstripBy pyWs Q := by
  unfold stripBy
  rw [List.cons_append, dropWhile_cons_neg _ hws]
  unfold rstripBy
  rw [show (c :: (cs ++ Q)) = (c :: cs) ++ Q from by rw [List.cons_append]]
  rw [List.reverse_append]
  rw [dropWhile_append_of_mem_neg _ (by
    obtain ⟨a, ha, hpa⟩ := hQ
    exact ⟨a, List.mem_reverse.mpr ha, hpa⟩)]
  simp

set_option maxHeartbeats 1600000 in
/-- C4 counterexample: a model response with preamble prose before the
canonical header marker passes through `reconstruct_resume`'s
post-processing unchanged - the preamble is kept, so the returned string
does not begin at the header marker. -/
theorem reconstruct_preamble_kept_counterexample :
    (Reconstructor.reconstruct_resume {} "jd" "jp" {} "p" "m"
      { script := fun _ => "Here is the enhanced resume:\n=== HEADER ===\nJohn Doe",
        calls := 0 }).1 =
      "Here is the enhanced resume:\n=== HEADER ===\nJohn Doe" ∧
    pyStartsWith
      (Reconstructor.reconstruct_resume {} "jd" "jp" {} "p" "m"
        { script := fun _ => "Here is the enhanced resume:\n=== HEADER ===\nJohn Doe",
          calls := 0 }).1 "=== HEADER ===" = false :=
  ⟨rfl, rfl⟩

/-- C4 (amended): the full-mode post-processing strips wrapping code
fences and surrounding whitespace only; it performs no search for the
start-of-template marker, so whenever the response is preamble prose
followed by the marker, the returned string is the whitespace-stripped
response - it still begins with the preamble and not at the marker.
(The marker-discarding behaviour the spec describes belongs to the fast
mode, which is absent from the provided sources and modelled separately
for C1.) -/
theorem reconstruct_postprocess_fence_only (r : ParsedResume) (jd jp : String) (g : GapAnalysis)
    (provider model : String) (env : AIEnv) (p rest : String) (c : Char) (cs : List Char)
    (hresp : env.script env.calls = p ++ Reconstructor.START_MARKER ++ rest)
    (hp : p.data = c :: cs) (hws : pyWs c = false) (hbt : c ≠ btick) (hee : c ≠ '=') :
    (Reconstructor.reconstruct_resume r jd jp g provider model env).1 =
      pyStrip (p ++ Reconstructor.START_MARKER ++ rest) ∧
    pyStartsWith (Reconstructor.reconstruct_resume r jd jp g provider model env).1 p = true ∧
    pyStartsWith (Reconstructor.reconstruct_resume r jd jp g provider model env).1
      Reconstructor.START_MARKER = false := by
  have hre : (Reconstructor.reconstruct_resume r jd jp g provider model env).1 =
      Reconstructor.clean_reconstructed (env.script env.calls) := by
    rw [reconstruct_resume_eq]
  have hdata : (p ++ Reconstructor.START_MARKER ++ rest).data =
      (c :: cs) ++ (Reconstructor.START_MARKER.data ++ rest.data) := by
    rw [str_data_append, str_data_append, hp, List.append_assoc]
  have hQmem : ∃ a ∈ Reconstructor.START_MARKER.data ++ rest.data, pyWs a = false :=
    ⟨'=', List.mem_append_left _ (by decide), by decide⟩
  have hstrip : (pyStrip (p ++ Reconstructor.START_MARKER ++ rest)).data =
      (c :: cs) ++ rstripBy pyWs (Reconstructor.START_MARKER.data ++ rest.data) := by
    show stripBy pyWs (p ++ Reconstructor.START_MARKER ++ rest).data = _
    rw [hdata]
    exact stripBy_preamble cs _ hws hQmem
  have hfence : pyStartsWith (pyStrip (p ++ Reconstructor.START_MARKER ++ rest)) "```" = false := by
    unfold pyStartsWith
    rw [hstrip, List.cons_append]
    rw [show ("```" : String).data = btick :: [btick, btick] from rfl]
    exact charsPrefix_cons_false (fun h => hbt h.symm) _ _
  have hclean : Reconstructor.clean_reconstructed (p ++ Reconstructor.START_MARKER ++ rest) =
      pyStrip (p ++ Reconstructor.START_MARKER ++ rest) := by
    unfold Reconstructor.clean_reconstructed
    simp [hfence]
  refine ⟨?_, ?_, ?_⟩
  · rw [hre, hresp, hclean]
  · rw [hre, hresp, hclean]
    unfold pyStartsWith
    rw [hstrip, hp]
    exact charsPrefix_append_self _ _
  · rw [hre, hresp, hclean]
    unfold pyStartsWith
    rw [hstrip, List.cons_append]
    rw [show Reconstructor.START_MARKER.data = '=' :: "== HEADER ===".data from rfl]
    exact charsPrefix_cons_false (fun h => hee h.symm) _ _

/-- C4 witness at a concrete preamble-headed response. -/
theorem reconstruct_postprocess_fence_only_witness :
    (Reconstructor.reconstruct_resume {} "jd" "jp" {} "p" "m"
      { script := fun _ => "Intro: " ++ Reconstructor.START_MARKER ++ "\nJane",
        calls := 0 }).1 =
      pyStrip ("Intro: " ++ Reconstructor.START_MARKER ++ "\nJane") ∧
    pyStartsWith (Reconstructor.reconstruct_resume {} "jd" "jp" {} "p" "m"
      { script := fun _ => "Intro: " ++ Reconstructor.START_MARKER ++ "\nJane",
        calls := 0 }).1 "Intro: " = true ∧
    pyStartsWith (Reconstructor.reconstruct_resume {} "jd" "jp" {} "p" "m"
      { script := fun _ => "Intro: " ++ Reconstructor.START_MARKER ++ "\nJane",
        calls := 0 }).1 Reconstructor.START_MARKER = false :=
  reconstruct_postprocess_fence_only {} "jd" "jp" {} "p" "m"
    { script := fun _ => "Intro: " ++ Reconstructor.START_MARKER ++ "\nJane", calls := 0 }
    "Intro: " "\nJane" 'I' "ntro: ".data rfl rfl (by decide) (by decide) (by decide)

/-! ## C8: the cleanup pass is insensitive to code-fence wrapping.

The development below establishes, for every string that `json_loads`
accepts, that the first character of the (stripped) document is a value
starter and the last character is a value closer - in particular neither
is a backtick - so the fence-stripping slices of `parse_json_safely` fire
exactly on the added fences and on nothing else. -/

/-- Characters that can end a successfully parsed JSON value. -/
def closerB (c : Char) : Bool :=
  c = '"' || c = rbrace || c = ']' || c = 'l' || c = 'e' || c = 'N' || c = 'y' || c.isDigit

/-- Characters that can start a JSON value. -/
def starterB (c : Char) : Bool :=
  c = lbrace || c = '[' || c = '"' || c = 't' || c = 'f' || c = 'n' ||
  c.isDigit || c = '-' || c = 'N' || c = 'I'

/-- The last character of a character list, read off its reversal. -/
def lastCharQ (cs : List Char) : Option Char := cs.reverse.head?

theorem lastCharQ_append {l2 : List Char} {c : Char} (l1 : List Char)
    (h : lastCharQ l2 = some c) : lastCharQ (l1 ++ l2) = some c := by
  unfold lastCharQ at h ⊢
  rw [List.reverse_append]
  cases hrev : l2.reverse with
  | nil => rw [hrev] at h; cases h
  | cons b bs =>
    rw [hrev] at h
    exact h

theorem lastCharQ_some_ne_nil {cs : List Char} {c : Char} (h : lastCharQ cs = some c) :
    cs ≠ [] := by
  intro h0
  rw [h0] at h
  cases h

theorem lastCharQ_of_suffix {cs r : List Char} {c : Char} (hs : r <:+ cs)
    (h : lastCharQ r = some c) : lastCharQ cs = some c := by
  obtain ⟨pre, rfl⟩ := hs
  exact lastCharQ_append pre h

theorem lastCharQ_cases (l : List Char) :
    l = [] ∨ ∃ d, lastCharQ l = some d ∧ d ∈ l := by
  cases hrev : l.reverse with
  | nil => exact Or.inl (by simpa using congrArg List.reverse hrev)
  | cons d ds =>
    refine Or.inr ⟨d, ?_, ?_⟩
    · unfold lastCharQ
      rw [hrev]
      rfl
    · have hd : d ∈ l.reverse := by rw [hrev]; exact List.mem_cons_self d ds
      exact List.mem_reverse.mp hd

theorem skipWs_suffix (cs : List Char) : skipWs cs <:+ cs := by
  induction cs with
  | nil => exact List.suffix_rfl
  | cons c t ih =>
    rw [skipWs]
    by_cases hc : jsonWs c = true
    · simp only [hc, if_true]
      exact ih.trans (List.suffix_cons c t)
    · simp only [hc, if_false]
      exact List.suffix_rfl

theorem charsPrefix_exists {p : List Char} : ∀ {cs : List Char},
    charsPrefix p cs = true → cs = p ++ cs.drop p.length := by
  induction p with
  | nil => intro cs _; rfl
  | cons a as ih =>
    intro cs h
    cases cs with
    | nil => exact absurd h (by simp [charsPrefix])
    | cons b bs =>
      simp only [charsPrefix, Bool.and_eq_true, decide_eq_true_eq] at h
      obtain ⟨hab, h2⟩ := h
      subst hab
      have h3 := ih h2
      calc a :: bs = a :: (as ++ bs.drop as.length) := by rw [← h3]
        _ = (a :: as) ++ (a :: bs).drop (a :: as).length := by simp

theorem closer_of_digit {d : Char} (h : d.isDigit = true) : closerB d = true := by
  simp [closerB, h]

theorem takeDigits_spec : ∀ (cs : List Char),
    cs = (takeDigits cs).1 ++ (takeDigits cs).2 ∧
    ∀ d ∈ (takeDigits cs).1, d.isDigit = true := by
  intro cs
  induction cs with
  | nil => exact ⟨rfl, by intro d hd; cases hd⟩
  | cons c t ih =>
    rw [takeDigits]
    by_cases hc : c.isDigit = true
    · simp only [hc, if_true]
      refine ⟨?_, ?_⟩
      · calc c :: t = c :: ((takeDigits t).1 ++ (takeDigits t).2) := by rw [← ih.1]
          _ = _ := by simp
      · intro d hd
        rcases List.mem_cons.mp hd with h1 | h1
        · rw [h1]; exact hc
        · exact ih.2 d h1
    · simp only [hc, if_false]
      exact ⟨rfl, by intro d hd; cases hd⟩

/-- A nonempty digit span ends in a digit. -/
theorem takeDigits_last {cs : List Char} (hne : (takeDigits cs).1 ≠ []) :
    ∃ d, lastCharQ (takeDigits cs).1 = some d ∧ d.isDigit = true := by
  rcases lastCharQ_cases (takeDigits cs).1 with h0 | ⟨d, hd1, hd2⟩
  · exact absurd h0 hne
  · exact ⟨d, hd1, (takeDigits_spec cs).2 d hd2⟩

theorem parseIntPart_spec {cs ip r : List Char} (h : parseIntPart cs = some (ip, r)) :
    cs = ip ++ r ∧ ∃ d, lastCharQ ip = some d ∧ d.isDigit = true := by
  cases cs with
  | nil => cases h
  | cons c t =>
    rw [parseIntPart] at h
    by_cases hc : c = '0'
    · subst hc
      rw [if_pos rfl] at h
      simp only [Option.some.injEq, Prod.mk.injEq] at h
      obtain ⟨h1, h2⟩ := h
      subst h1; subst h2
      exact ⟨by simp, '0', rfl, by decide⟩
    · rw [if_neg hc] at h
      by_cases hd : c.isDigit = true
      · rw [if_pos hd] at h
        simp only [Option.some.injEq, Prod.mk.injEq] at h
        obtain ⟨h1, h2⟩ := h
        subst h1; subst h2
        refine ⟨?_, ?_⟩
        · calc c :: t = c :: ((takeDigits t).1 ++ (takeDigits t).2) := by
                rw [← (takeDigits_spec t).1]
            _ = _ := by simp
        · rcases lastCharQ_cases (takeDigits t).1 with h0 | ⟨d, hdq, hdm⟩
          · rw [h0]
            exact ⟨c, rfl, hd⟩
          · exact ⟨d, lastCharQ_append [c] hdq, (takeDigits_spec t).2 d hdm⟩
      · rw [if_neg hd] at h
        cases h

theorem parseFracPart_spec {cs fp r : List Char} (h : parseFracPart cs = some (fp, r)) :
    cs = fp ++ r ∧ (fp = [] ∨ ∃ d, lastCharQ fp = some d ∧ d.isDigit = true) := by
  cases cs with
  | nil =>
    simp only [parseFracPart, Option.some.injEq, Prod.mk.injEq] at h
    obtain ⟨h1, h2⟩ := h
    subst h1; subst h2
    exact ⟨rfl, Or.inl rfl⟩
  | cons c t =>
    rw [parseFracPart] at h
    by_cases hc : c = '.'
    · subst hc
      rw [if_pos rfl] at h
      by_cases he : (takeDigits t).1.isEmpty = true
      · rw [if_pos he] at h
        cases h
      · rw [if_neg he] at h
        simp only [Option.some.injEq, Prod.mk.injEq] at h
        obtain ⟨h1, h2⟩ := h
        subst h1; subst h2
        have hne : (takeDigits t).1 ≠ [] := by
          intro h0
          rw [h0] at he
          exact he rfl
        obtain ⟨d, hdq, hdd⟩ := takeDigits_last hne
        refine ⟨?_, Or.inr ⟨d, lastCharQ_append ['.'] hdq, hdd⟩⟩
        calc '.' :: t = '.' :: ((takeDigits t).1 ++ (takeDigits t).2) := by
              rw [← (takeDigits_spec t).1]
          _ = _ := by simp
    · rw [if_neg hc] at h
      simp only [Option.some.injEq, Prod.mk.injEq] at h
      obtain ⟨h1, h2⟩ := h
      subst h1; subst h2
      exact ⟨rfl, Or.inl rfl⟩

theorem parseExpPartCore_spec {c : Char} {cs ep r : List Char}
    (h : parseExpPartCore c cs = some (ep, r)) :
    cs = ep.tail ++ r ∧ ep.head? = some c ∧
    (∃ d, lastCharQ ep = some d ∧ d.isDigit = true) := by
  cases cs with
  | nil => cases h
  | cons s t =>
    have h : (if (s = '+' || s = '-') = true then
        (if (takeDigits t).1.isEmpty then none
         else some (c :: s :: (takeDigits t).1, (takeDigits t).2))
      else
        (if (takeDigits (s :: t)).1.isEmpty then none
         else some (c :: (takeDigits (s :: t)).1, (takeDigits (s :: t)).2))) = some (ep, r) := h
    by_cases hs : (s = '+' || s = '-') = true
    · rw [if_pos hs] at h
      by_cases he : (takeDigits t).1.isEmpty = true
      · rw [if_pos he] at h
        cases h
      · rw [if_neg he] at h
        simp only [Option.some.injEq, Prod.mk.injEq] at h
        obtain ⟨h1, h2⟩ := h
        subst h1; subst h2
        have hne : (takeDigits t).1 ≠ [] := by
          intro h0
          rw [h0] at he
          exact he rfl
        obtain ⟨d, hdq, hdd⟩ := takeDigits_last hne
        refine ⟨?_, rfl, d, lastCharQ_append [c, s] hdq, hdd⟩
        calc s :: t = s :: ((takeDigits t).1 ++ (takeDigits t).2) := by
              rw [← (takeDigits_spec t).1]
          _ = _ := by simp
    · rw [if_neg (by simpa using hs)] at h
      by_cases he : (takeDigits (s :: t)).1.isEmpty = true
      · rw [if_pos he] at h
        cases h
      · rw [if_neg he] at h
        simp only [Option.some.injEq, Prod.mk.injEq] at h
        obtain ⟨h1, h2⟩ := h
        subst h1; subst h2
        have hne : (takeDigits (s :: t)).1 ≠ [] := by
          intro h0
          rw [h0] at he
          exact he rfl
        obtain ⟨d, hdq, hdd⟩ := takeDigits_last hne
        refine ⟨?_, rfl, d, lastCharQ_append [c] hdq, hdd⟩
        exact (takeDigits_spec (s :: t)).1

theorem parseExpPart_spec {cs ep r : List Char} (h : parseExpPart cs = some (ep, r)) :
    cs = ep ++ r ∧ (ep = [] ∨ ∃ d, lastCharQ ep = some d ∧ d.isDigit = true) := by
  cases cs with
  | nil =>
    simp only [parseExpPart, Option.some.injEq, Prod.mk.injEq] at h
    obtain ⟨h1, h2⟩ := h
    subst h1; subst h2
    exact ⟨rfl, Or.inl rfl⟩
  | cons c t =>
    rw [parseExpPart] at h
    by_cases hc : (c = 'e' || c = 'E') = true
    · rw [if_pos hc] at h
      obtain ⟨hsplit, hhead, d, hdq, hdd⟩ := parseExpPartCore_spec h
      refine ⟨?_, Or.inr ⟨d, hdq, hdd⟩⟩
      cases ep with
      | nil => cases hhead
      | cons e0 ep1 =>
        have he0 : e0 = c := by
          simp only [List.head?] at hhead
          exact Option.some.inj hhead
        subst he0
        rw [List.cons_append, show t = ep1 ++ r from hsplit]
    · rw [if_neg (by simpa using hc)] at h
      simp only [Option.some.injEq, Prod.mk.injEq] at h
      obtain ⟨h1, h2⟩ := h
      subst h1; subst h2
      exact ⟨rfl, Or.inl rfl⟩

theorem parseNumberTail_spec {sgn cs1 lex r : List Char}
    (h : parseNumberTail sgn cs1 = some (lex, r)) :
    (∃ body, lex = sgn ++ body ∧ cs1 = body ++ r) ∧
    (r = [] → ∃ d, lastCharQ cs1 = some d ∧ d.isDigit = true) := by
  unfold parseNumberTail at h
  split at h
  · cases h
  · next ip cs2 hip =>
    split at h
    · cases h
    · next fp cs3 hfp =>
      split at h
      · cases h
      · next ep cs4 hep =>
        simp only [Option.some.injEq, Prod.mk.injEq] at h
        obtain ⟨h1, h2⟩ := h
        obtain ⟨hi1, d0, hi2, hi3⟩ := parseIntPart_spec hip
        obtain ⟨hf1, hf2⟩ := parseFracPart_spec hfp
        obtain ⟨he1, he2⟩ := parseExpPart_spec hep
        have hbody : cs1 = (ip ++ fp ++ ep) ++ cs4 := by
          rw [hi1, hf1, he1]
          simp
        have hlast : ∃ d, lastCharQ (ip ++ fp ++ ep) = some d ∧ d.isDigit = true := by
          rcases he2 with he0 | ⟨d, hd1, hd2⟩
          · rcases hf2 with hf0 | ⟨d, hd1, hd2⟩
            · refine ⟨d0, ?_, hi3⟩
              rw [he0, hf0]
              simpa using hi2
            · refine ⟨d, ?_, hd2⟩
              rw [he0]
              simpa using lastCharQ_append ip hd1
          · exact ⟨d, lastCharQ_append (ip ++ fp) hd1, hd2⟩
        constructor
        · refine ⟨ip ++ fp ++ ep, ?_, ?_⟩
          · rw [← h1]
            simp
          · rw [← h2]
            exact hbody
        · intro hr
          have hc4 : cs4 = [] := h2.trans hr
          obtain ⟨d, hd1, hd2⟩ := hlast
          refine ⟨d, ?_, hd2⟩
          rw [hbody, hc4, List.append_nil]
          exact hd1

theorem litCheck_spec {lit : List Char} {v w : Json} {cs r : List Char}
    (h : litCheck lit v cs = some (w, r)) :
    cs = lit ++ r ∧ w = v := by
  unfold litCheck at h
  by_cases hp : charsPrefix lit cs = true
  · rw [if_pos hp] at h
    simp only [Option.some.injEq, Prod.mk.injEq] at h
    obtain ⟨h1, h2⟩ := h
    subst h1; subst h2
    exact ⟨charsPrefix_exists hp, rfl⟩
  · rw [if_neg hp] at h
    cases h

theorem parseNumber_spec {cs lex r : List Char} (h : parseNumber cs = some (lex, r)) :
    r <:+ cs ∧ (r = [] → ∃ d, lastCharQ cs = some d ∧ closerB d = true) := by
  unfold parseNumber at h
  by_cases h1 : charsPrefix "NaN".data cs = true
  · rw [if_pos h1] at h
    simp only [Option.some.injEq, Prod.mk.injEq] at h
    obtain ⟨ha, hb⟩ := h
    have hcs := charsPrefix_exists h1
    constructor
    · rw [← hb]
      exact hcs ▸ List.suffix_append _ _
    · intro hr
      have hd : cs.drop ("NaN".data).length = [] := hb.trans hr
      rw [hcs, hd, List.append_nil]
      exact ⟨'N', by decide, by decide⟩
  · rw [if_neg h1] at h
    by_cases h2 : charsPrefix "Infinity".data cs = true
    · rw [if_pos h2] at h
      simp only [Option.some.injEq, Prod.mk.injEq] at h
      obtain ⟨ha, hb⟩ := h
      have hcs := charsPrefix_exists h2
      constructor
      · rw [← hb]
        exact hcs ▸ List.suffix_append _ _
      · intro hr
        have hd : cs.drop ("Infinity".data).length = [] := hb.trans hr
        rw [hcs, hd, List.append_nil]
        exact ⟨'y', by decide, by decide⟩
    · rw [if_neg h2] at h
      by_cases h3 : charsPrefix "-Infinity".data cs = true
      · rw [if_pos h3] at h
        simp only [Option.some.injEq, Prod.mk.injEq] at h
        obtain ⟨ha, hb⟩ := h
        have hcs := charsPrefix_exists h3
        constructor
        · rw [← hb]
          exact hcs ▸ List.suffix_append _ _
        · intro hr
          have hd : cs.drop ("-Infinity".data).length = [] := hb.trans hr
          rw [hcs, hd, List.append_nil]
          exact ⟨'y', by decide, by decide⟩
      · rw [if_neg h3] at h
        split at h
        · next t =>
          obtain ⟨⟨body, _, hsplit⟩, hclose⟩ := parseNumberTail_spec h
          constructor
          · rw [hsplit]
            exact (List.suffix_append body r).trans (List.suffix_cons _ _)
          · intro hr
            obtain ⟨d, hd1, hd2⟩ := hclose hr
            exact ⟨d, lastCharQ_append ['-'] hd1, closer_of_digit hd2⟩
        · next _ =>
          obtain ⟨⟨body, _, hsplit⟩, hclose⟩ := parseNumberTail_spec h
          constructor
          · rw [hsplit]
            exact List.suffix_append body r
          · intro hr
            obtain ⟨d, hd1, hd2⟩ := hclose hr
            exact ⟨d, hd1, closer_of_digit hd2⟩

theorem consStr_some {c : Char} {o : Option (List Char × List Char)}
    {cs r : List Char} (h : consStr c o = some (cs, r)) :
    ∃ cs0, o = some (cs0, r) ∧ cs = c :: cs0 := by
  cases o with
  | none => cases h
  | some pr =>
    obtain ⟨cs0, r0⟩ := pr
    simp only [consStr, Option.some.injEq, Prod.mk.injEq] at h
    obtain ⟨h1, h2⟩ := h
    exact ⟨cs0, by rw [h2], h1.symm⟩

theorem parseStringBody_zero (cs : List Char) : parseStringBody 0 cs = none := rfl

theorem parseStringBody_nil (f : Nat) : parseStringBody (f + 1) [] = none := rfl

theorem parseStringBody_cons (f : Nat) (c : Char) (cs : List Char) :
    parseStringBody (f + 1) (c :: cs) =
    (if c = '"' then some ([], cs)
    else if c = '\\' then
      match cs with
      | [] => none
      | e :: cs2 =>
        if e = 'u' then
          match cs2 with
          | h1 :: h2 :: h3 :: h4 :: cs3 =>
            match hexVal h1, hexVal h2, hexVal h3, hexVal h4 with
            | some a, some b, some d, some g =>
              consStr (Char.ofNat (a * 4096 + b * 256 + d * 16 + g)) (parseStringBody f cs3)
            | _, _, _, _ => none
          | _ => none
        else
          match escChar e with
          | some ch => consStr ch (parseStringBody f cs2)
          | none => none
    else if c.toNat < 32 then none
    else consStr c (parseStringBody f cs)) := rfl

theorem parseValue_zero (cs : List Char) : parseValue 0 cs = none := rfl

theorem parseValue_nil (f : Nat) : parseValue (f + 1) [] = none := rfl

theorem parseValue_cons (f : Nat) (c : Char) (cs : List Char) :
    parseValue (f + 1) (c :: cs) =
    (if c = lbrace then parseObjBody f (skipWs cs)
    else if c = '[' then parseArrBody f (skipWs cs)
    else if c = '"' then
      match parseStringBody f cs with
      | some (content, r) => some (.str (String.mk content), r)
      | none => none
    else if c = 't' then litCheck "true".data (.bool true) (c :: cs)
    else if c = 'f' then litCheck "false".data (.bool false) (c :: cs)
    else if c = 'n' then litCheck "null".data .null (c :: cs)
    else if c.isDigit || c = '-' || c = 'N' || c = 'I' then
      match parseNumber (c :: cs) with
      | some (lex, r) => some (.num (String.mk lex), r)
      | none => none
    else none) := rfl

theorem parseObjBody_zero (cs : List Char) : parseObjBody 0 cs = none := rfl

theorem parseObjBody_nil (f : Nat) : parseObjBody (f + 1) [] = none := rfl

theorem parseObjBody_cons (f : Nat) (c : Char) (t : List Char) :
    parseObjBody (f + 1) (c :: t) =
    (if c = rbrace then some (.obj [], t)
    else parseMembers f [] (c :: t)) := rfl

theorem parseMembers_zero (acc : List (String × Json)) (cs : List Char) :
    parseMembers 0 acc cs = none := rfl

theorem parseMembers_nil (f : Nat) (acc : List (String × Json)) :
    parseMembers (f + 1) acc [] = none := rfl

theorem parseMembers_cons (f : Nat) (acc : List (String × Json)) (c : Char) (t : List Char) :
    parseMembers (f + 1) acc (c :: t) =
    (if c = '"' then
      match parseStringBody f t with
      | none => none
      | some (key, r1) =>
        match skipWs r1 with
        | ':' :: r2 =>
          match parseValue f (skipWs r2) with
          | none => none
          | some (v, r3) =>
            match skipWs r3 with
            | [] => none
            | d :: r4 =>
              if d = rbrace then some (.obj (acc ++ [(String.mk key, v)]), r4)
              else if d = ',' then parseMembers f (acc ++ [(String.mk key, v)]) (skipWs r4)
              else none
        | _ => none
    else none) := rfl

theorem parseArrBody_zero (cs : List Char) : parseArrBody 0 cs = none := rfl

theorem parseArrBody_nil (f : Nat) : parseArrBody (f + 1) [] = none := rfl

theorem parseArrBody_cons (f : Nat) (c : Char) (t : List Char) :
    parseArrBody (f + 1) (c :: t) =
    (if c = ']' then some (.arr [], t)
    else parseElems f [] (c :: t)) := rfl

theorem parseElems_zero (acc : List Json) (cs : List Char) : parseElems 0 acc cs = none := rfl

theorem parseElems_succ (f : Nat) (acc : List Json) (cs : List Char) :
    parseElems (f + 1) acc cs =
    (match parseValue f cs with
    | none => none
    | some (v, r1) =>
      match skipWs r1 with
      | [] => none
      | d :: r2 =>
        if d = ']' then some (.arr (acc ++ [v]), r2)
        else if d = ',' then parseElems f (acc ++ [v]) (skipWs r2)
        else none) := rfl

set_option maxHeartbeats 1600000 in
/-- Grand fuel induction over the six mutual parser functions: on success
the rest of the input is a suffix of it, and when that rest is empty the
last input character closes a value (the closing quote, brace or bracket,
the final letter of a literal, or a digit). -/
theorem parseSuffixClose (f : Nat) :
    (∀ cs content r, parseStringBody f cs = some (content, r) →
      r <:+ cs ∧ (r = [] → lastCharQ cs = some '"')) ∧
    (∀ cs v r, parseValue f cs = some (v, r) →
      r <:+ cs ∧ (r = [] → ∃ d, lastCharQ cs = some d ∧ closerB d = true)) ∧
    (∀ cs v r, parseObjBody f cs = some (v, r) →
      r <:+ cs ∧ (r = [] → lastCharQ cs = some rbrace)) ∧
    (∀ acc cs v r, parseMembers f acc cs = some (v, r) →
      r <:+ cs ∧ (r = [] → lastCharQ cs = some rbrace)) ∧
    (∀ cs v r, parseArrBody f cs = some (v, r) →
      r <:+ cs ∧ (r = [] → lastCharQ cs = some ']')) ∧
    (∀ acc cs v r, parseElems f acc cs = some (v, r) →
      r <:+ cs ∧ (r = [] → lastCharQ cs = some ']')) := by
  induction f with
  | zero =>
    refine ⟨?_, ?_, ?_, ?_, ?_, ?_⟩
    · intro cs content r h; rw [parseStringBody_zero] at h; cases h
    · intro cs v r h; rw [parseValue_zero] at h; cases h
    · intro cs v r h; rw [parseObjBody_zero] at h; cases h
    · intro acc cs v r h; rw [parseMembers_zero] at h; cases h
    · intro cs v r h; rw [parseArrBody_zero] at h; cases h
    · intro acc cs v r h; rw [parseElems_zero] at h; cases h
  | succ f ih =>
    obtain ⟨ihS, ihV, ihO, ihM, ihA, ihE⟩ := ih
    refine ⟨?_, ?_, ?_, ?_, ?_, ?_⟩
    · -- parseStringBody
      intro cs content r h
      cases cs with
      | nil => rw [parseStringBody_nil] at h; cases h
      | cons c cs1 =>
        rw [parseStringBody_cons] at h
        split at h
        · next hq =>
          simp only [Option.some.injEq, Prod.mk.injEq] at h
          obtain ⟨h1, h2⟩ := h
          subst h2
          refine ⟨List.suffix_cons c cs1, ?_⟩
          intro hr
          subst hr
          subst hq
          rfl
        · next hq =>
          split at h
          · next hb =>
            split at h
            · cases h
            · next e cs2 =>
              split at h
              · next hu =>
                split at h
                · next x1 x2 x3 x4 cs3 =>
                  split at h
                  · obtain ⟨content0, hrec, hcont⟩ := consStr_some h
                    obtain ⟨hsuf, hclose⟩ := ihS cs3 content0 r hrec
                    refine ⟨hsuf.trans ⟨[c, e, x1, x2, x3, x4], rfl⟩, ?_⟩
                    intro hr
                    exact lastCharQ_append [c, e, x1, x2, x3, x4] (hclose hr)
                  all_goals cases h
                all_goals cases h
              · next hu =>
                split at h
                · next ch hch =>
                  obtain ⟨content0, hrec, hcont⟩ := consStr_some h
                  obtain ⟨hsuf, hclose⟩ := ihS cs2 content0 r hrec
                  refine ⟨hsuf.trans ⟨[c, e], rfl⟩, ?_⟩
                  intro hr
                  exact lastCharQ_append [c, e] (hclose hr)
                · cases h
          · next hb =>
            split at h
            · cases h
            · obtain ⟨content0, hrec, hcont⟩ := consStr_some h
              obtain ⟨hsuf, hclose⟩ := ihS cs1 content0 r hrec
              refine ⟨hsuf.trans (List.suffix_cons c cs1), ?_⟩
              intro hr
              exact lastCharQ_append [c] (hclose hr)
    · -- parseValue
      intro cs v r h
      cases cs with
      | nil => rw [parseValue_nil] at h; cases h
      | cons c t =>
        rw [parseValue_cons] at h
        split at h
        · obtain ⟨hsuf, hclose⟩ := ihO _ _ _ h
          have hsk : skipWs t <:+ c :: t := (skipWs_suffix t).trans (List.suffix_cons c t)
          refine ⟨hsuf.trans hsk, ?_⟩
          intro hr
          exact ⟨rbrace, lastCharQ_of_suffix hsk (hclose hr), by decide⟩
        · split at h
          · obtain ⟨hsuf, hclose⟩ := ihA _ _ _ h
            have hsk : skipWs t <:+ c :: t := (skipWs_suffix t).trans (List.suffix_cons c t)
            refine ⟨hsuf.trans hsk, ?_⟩
            intro hr
            exact ⟨']', lastCharQ_of_suffix hsk (hclose hr), by decide⟩
          · split at h
            · next hc =>
              split at h
              · next content r0 hps =>
                simp only [Option.some.injEq, Prod.mk.injEq] at h
                obtain ⟨hv, hr0⟩ := h
                subst hr0
                obtain ⟨hsuf, hclose⟩ := ihS _ _ _ hps
                refine ⟨hsuf.trans (List.suffix_cons c t), ?_⟩
                intro hr
                exact ⟨'"', lastCharQ_of_suffix (List.suffix_cons c t) (hclose hr), by decide⟩
              · cases h
            · split at h
              · obtain ⟨hspec, hv⟩ := litCheck_spec h
                refine ⟨?_, ?_⟩
                · rw [hspec]
                  exact List.suffix_append _ _
                · intro hr
                  rw [hr, List.append_nil] at hspec
                  rw [hspec]
                  exact ⟨'e', by decide, by decide⟩
              · split at h
                · obtain ⟨hspec, hv⟩ := litCheck_spec h
                  refine ⟨?_, ?_⟩
                  · rw [hspec]
                    exact List.suffix_append _ _
                  · intro hr
                    rw [hr, List.append_nil] at hspec
                    rw [hspec]
                    exact ⟨'e', by decide, by decide⟩
                · split at h
                  · obtain ⟨hspec, hv⟩ := litCheck_spec h
                    refine ⟨?_, ?_⟩
                    · rw [hspec]
                      exact List.suffix_append _ _
                    · intro hr
                      rw [hr, List.append_nil] at hspec
                      rw [hspec]
                      exact ⟨'l', by decide, by decide⟩
                  · split at h
                    · split at h
                      · next lex r0 hpn =>
                        simp only [Option.some.injEq, Prod.mk.injEq] at h
                        obtain ⟨hv, hr0⟩ := h
                        subst hr0
                        exact parseNumber_spec hpn
                      · cases h
                    · cases h
    · -- parseObjBody
      intro cs v r h
      cases cs with
      | nil => rw [parseObjBody_nil] at h; cases h
      | cons c t =>
        rw [parseObjBody_cons] at h
        split at h
        · next hc =>
          simp only [Option.some.injEq, Prod.mk.injEq] at h
          obtain ⟨hv, ht⟩ := h
          subst ht
          refine ⟨List.suffix_cons c t, ?_⟩
          intro hr
          subst hr
          subst hc
          rfl
        · exact ihM _ _ _ _ h
    · -- parseMembers
      intro acc cs v r h
      cases cs with
      | nil => rw [parseMembers_nil] at h; cases h
      | cons c t =>
        rw [parseMembers_cons] at h
        split at h
        · split at h
          · cases h
          · next key r1 hps =>
            split at h
            · next r2 hr1 =>
              split at h
              · cases h
              · next v0 r3 hpv =>
                split at h
                · cases h
                · next d r4 hr3 =>
                  have hchainR3 : r3 <:+ c :: t := by
                    have s1 : r3 <:+ skipWs r2 := (ihV _ _ _ hpv).1
                    have s2 : skipWs r2 <:+ skipWs r1 := by
                      rw [hr1]
                      exact (skipWs_suffix r2).trans (List.suffix_cons ':' r2)
                    have s3 : skipWs r1 <:+ t := (skipWs_suffix r1).trans (ihS _ _ _ hps).1
                    exact ((s1.trans s2).trans s3).trans (List.suffix_cons c t)
                  have hsk3 : skipWs r3 <:+ c :: t := (skipWs_suffix r3).trans hchainR3
                  have hr4suf : r4 <:+ c :: t := by
                    have hx : r4 <:+ skipWs r3 := by
                      rw [hr3]
                      exact List.suffix_cons d r4
                    exact hx.trans hsk3
                  split at h
                  · next hd =>
                    simp only [Option.some.injEq, Prod.mk.injEq] at h
                    obtain ⟨hv, hrr⟩ := h
                    subst hrr
                    refine ⟨hr4suf, ?_⟩
                    intro hr
                    have hlq : lastCharQ (skipWs r3) = some rbrace := by
                      rw [hr3, hr, hd]
                      rfl
                    exact lastCharQ_of_suffix hsk3 hlq
                  · split at h
                    · obtain ⟨hsuf, hclose⟩ := ihM _ _ _ _ h
                      have hsk4 : skipWs r4 <:+ c :: t := (skipWs_suffix r4).trans hr4suf
                      refine ⟨hsuf.trans hsk4, ?_⟩
                      intro hr
                      exact lastCharQ_of_suffix hsk4 (hclose hr)
                    · cases h
            · cases h
        · cases h
    · -- parseArrBody
      intro cs v r h
      cases cs with
      | nil => rw [parseArrBody_nil] at h; cases h
      | cons c t =>
        rw [parseArrBody_cons] at h
        split at h
        · next hc =>
          simp only [Option.some.injEq, Prod.mk.injEq] at h
          obtain ⟨hv, ht⟩ := h
          subst ht
          refine ⟨List.suffix_cons c t, ?_⟩
          intro hr
          subst hr
          subst hc
          rfl
        · exact ihE _ _ _ _ h
    · -- parseElems
      intro acc cs v r h
      rw [parseElems_succ] at h
      split at h
      · cases h
      · next v0 r1 hpv =>
        have hr1s : r1 <:+ cs := (ihV _ _ _ hpv).1
        split at h
        · cases h
        · next d r2 hsw =>
          have hskw : skipWs r1 <:+ cs := (skipWs_suffix r1).trans hr1s
          have hr2s : r2 <:+ cs := by
            have hx : r2 <:+ skipWs r1 := by
              rw [hsw]
              exact List.suffix_cons d r2
            exact hx.trans hskw
          split at h
          · next hd =>
            simp only [Option.some.injEq, Prod.mk.injEq] at h
            obtain ⟨hv, hrr⟩ := h
            subst hrr
            refine ⟨hr2s, ?_⟩
            intro hr
            have hlq : lastCharQ (skipWs r1) = some ']' := by
              rw [hsw, hr, hd]
              rfl
            exact lastCharQ_of_suffix hskw hlq
          · split at h
            · obtain ⟨hsuf, hclose⟩ := ihE _ _ _ _ h
              have hsk2 : skipWs r2 <:+ cs := (skipWs_suffix r2).trans hr2s
              refine ⟨hsuf.trans hsk2, ?_⟩
              intro hr
              exact lastCharQ_of_suffix hsk2 (hclose hr)
            · cases h

theorem parseValue_starter {f : Nat} {cs : List Char} {v : Json} {r : List Char}
    (h : parseValue f cs = some (v, r)) :
    ∃ c t, cs = c :: t ∧ starterB c = true := by
  cases f with
  | zero => rw [parseValue_zero] at h; cases h
  | succ f =>
    cases cs with
    | nil => rw [parseValue_nil] at h; cases h
    | cons c t =>
      refine ⟨c, t, rfl, ?_⟩
      rw [parseValue_cons] at h
      split at h
      · next hc => subst hc; decide
      · split at h
        · next hc => subst hc; decide
        · split at h
          · next hc => subst hc; decide
          · split at h
            · next hc => subst hc; decide
            · split at h
              · next hc => subst hc; decide
              · split at h
                · next hc => subst hc; decide
                · split at h
                  · next hc =>
                    simp only [Bool.or_eq_true, decide_eq_true_eq] at hc
                    simp only [starterB, Bool.or_eq_true, decide_eq_true_eq]
                    tauto
                  · cases h

theorem pyWs_char_cases {c : Char} (h : pyWs c = true) :
    c = ' ' ∨ c = '\t' ∨ c = '\n' ∨ c = '\r' ∨ c = '\x0b' ∨ c = '\x0c' := by
  unfold pyWs jsonWs at h
  simp only [Bool.or_eq_true, decide_eq_true_eq] at h
  tauto

theorem pyWs_of_jsonWs {c : Char} (h : jsonWs c = true) : pyWs c = true := by
  unfold pyWs
  rw [h]
  rfl

theorem jsonWs_false_of_pyWs {c : Char} (h : pyWs c = false) : jsonWs c = false := by
  cases hj : jsonWs c with
  | false => rfl
  | true => rw [pyWs_of_jsonWs hj] at h; cases h

theorem starter_not_pyWs {c : Char} (h : starterB c = true) : pyWs c = false := by
  cases hw : pyWs c with
  | false => rfl
  | true =>
    rcases pyWs_char_cases hw with rfl | rfl | rfl | rfl | rfl | rfl <;>
      exact absurd h (by decide)

theorem closer_not_pyWs {d : Char} (h : closerB d = true) : pyWs d = false := by
  cases hw : pyWs d with
  | false => rfl
  | true =>
    rcases pyWs_char_cases hw with rfl | rfl | rfl | rfl | rfl | rfl <;>
      exact absurd h (by decide)

theorem starter_ne_btick {c : Char} (h : starterB c = true) : c ≠ btick := by
  intro hc
  subst hc
  exact absurd h (by decide)

theorem closer_ne_btick {d : Char} (h : closerB d = true) : d ≠ btick := by
  intro hc
  subst hc
  exact absurd h (by decide)

theorem dropWhile_append_all {p : Char → Bool} {l1 : List Char} (l2 : List Char)
    (h : ∀ a ∈ l1, p a = true) :
    List.dropWhile p (l1 ++ l2) = List.dropWhile p l2 := by
  induction l1 with
  | nil => rfl
  | cons c t ih =>
    rw [List.cons_append, List.dropWhile_cons, if_pos (h c (List.mem_cons_self c t))]
    exact ih (fun a ha => h a (List.mem_cons_of_mem c ha))

theorem mem_takeWhile_pos {p : Char → Bool} : ∀ {l : List Char} {a : Char},
    a ∈ l.takeWhile p → p a = true := by
  intro l
  induction l with
  | nil => intro a ha; cases ha
  | cons c t ih =>
    intro a ha
    rw [List.takeWhile_cons] at ha
    by_cases hc : p c = true
    · rw [if_pos hc] at ha
      rcases List.mem_cons.mp ha with h1 | h1
      · rw [h1]; exact hc
      · exact ih h1
    · rw [if_neg hc] at ha
      cases ha

theorem rstripBy_append_all {p : Char → Bool} {X suf : List Char}
    (hsuf : ∀ a ∈ suf, p a = true) :
    rstripBy p (X ++ suf) = rstripBy p X := by
  unfold rstripBy
  rw [List.reverse_append, dropWhile_append_all _ (by
    intro a ha
    exact hsuf a (List.mem_reverse.mp ha))]

theorem rstripBy_eq_self {p : Char → Bool} {cs : List Char} {d : Char}
    (hd : lastCharQ cs = some d) (hdp : p d = false) : rstripBy p cs = cs := by
  unfold rstripBy
  unfold lastCharQ at hd
  cases hrev : cs.reverse with
  | nil => rw [hrev] at hd; cases hd
  | cons d0 rest =>
    rw [hrev] at hd
    have hd0 : p d0 = false := by
      have hdd : d0 = d := Option.some.inj hd
      rw [hdd]
      exact hdp
    rw [dropWhile_cons_neg _ hd0, ← hrev, List.reverse_reverse]

theorem stripBy_eq_of_ends {p : Char → Bool} {c d : Char} {t : List Char}
    (hc : p c = false) (hd : lastCharQ (c :: t) = some d) (hdp : p d = false) :
    stripBy p (c :: t) = c :: t := by
  unfold stripBy
  rw [dropWhile_cons_neg _ hc]
  exact rstripBy_eq_self hd hdp

theorem stripBy_decomp (p : Char → Bool) (cs : List Char) :
    ∃ pre suf, cs = pre ++ stripBy p cs ++ suf ∧
      (∀ a ∈ pre, p a = true) ∧ (∀ a ∈ suf, p a = true) := by
  refine ⟨cs.takeWhile p, ((cs.dropWhile p).reverse.takeWhile p).reverse, ?_, ?_, ?_⟩
  · have hD : stripBy p cs ++ ((cs.dropWhile p).reverse.takeWhile p).reverse
        = cs.dropWhile p := by
      unfold stripBy rstripBy
      rw [← List.reverse_append, List.takeWhile_append_dropWhile, List.reverse_reverse]
    rw [List.append_assoc, hD, List.takeWhile_append_dropWhile]
  · intro a ha
    exact mem_takeWhile_pos ha
  · intro a ha
    exact mem_takeWhile_pos (List.mem_reverse.mp ha)

theorem stripBy_wsSuperset {s : List Char} {c d : Char} {t : List Char}
    (hcore : stripBy jsonWs s = c :: t) (hcws : pyWs c = false)
    (hd : lastCharQ (c :: t) = some d) (hdws : pyWs d = false) :
    stripBy pyWs s = c :: t := by
  obtain ⟨pre, suf, hdecomp, hpre, hsuf⟩ := stripBy_decomp jsonWs s
  rw [hcore] at hdecomp
  have hpre2 : ∀ a ∈ pre, pyWs a = true := fun a ha => pyWs_of_jsonWs (hpre a ha)
  have hsuf2 : ∀ a ∈ suf, pyWs a = true := fun a ha => pyWs_of_jsonWs (hsuf a ha)
  rw [hdecomp]
  unfold stripBy
  rw [List.append_assoc, dropWhile_append_all _ hpre2, List.cons_append,
      dropWhile_cons_neg _ hcws, ← List.cons_append, rstripBy_append_all hsuf2]
  exact rstripBy_eq_self hd hdws

theorem loads_core_shape {s : String} {j : Json} (h : json_loads s = some j) :
    ∃ c t d, stripBy jsonWs s.data = c :: t ∧ starterB c = true ∧
      lastCharQ (c :: t) = some d ∧ closerB d = true ∧
      parseValue (4 * (c :: t).length + 8) (c :: t) = some (j, []) := by
  simp only [json_loads] at h
  split at h
  · next v hp =>
    have hvj := Option.some.inj h
    subst hvj
    obtain ⟨c, t, hct, hst⟩ := parseValue_starter hp
    have hct2 : stripBy jsonWs s.data = c :: t := hct
    obtain ⟨d, hd1, hd2⟩ := ((parseSuffixClose (4 * (jsonStripChars s.data).length + 8)).2.1
      _ _ _ hp).2 rfl
    rw [hct] at hp hd1
    exact ⟨c, t, d, hct2, hst, hd1, hd2, hp⟩
  · cases h

theorem cleaned_of_core {s : String} {j : Json} {c d : Char} {t : List Char}
    (hstrip : stripBy pyWs s.data = c :: t)
    (hst : starterB c = true) (hd : lastCharQ (c :: t) = some d) (hcl : closerB d = true)
    (hpv : parseValue (4 * (c :: t).length + 8) (c :: t) = some (j, [])) :
    cleaned_json_loads s = some j := by
  have hcb : c ≠ btick := starter_ne_btick hst
  have hdb : d ≠ btick := closer_ne_btick hcl
  have hps : pyStrip s = String.mk (c :: t) := by
    unfold pyStrip
    rw [hstrip]
  have hc1 : pyStartsWith (String.mk (c :: t)) "```json" = false := by
    unfold pyStartsWith
    rw [show ("```json" : String).data = btick :: "``json".data from rfl]
    exact charsPrefix_cons_false (fun he => hcb he.symm) _ _
  have hc2 : pyStartsWith (String.mk (c :: t)) "```" = false := by
    unfold pyStartsWith
    rw [show ("```" : String).data = btick :: [btick, btick] from rfl]
    exact charsPrefix_cons_false (fun he => hcb he.symm) _ _
  have hc3 : pyEndsWith (String.mk (c :: t)) "```" = false := by
    unfold pyEndsWith
    rw [show ("```" : String).data.reverse = btick :: [btick, btick] from rfl]
    cases hrev : (String.mk (c :: t)).data.reverse with
    | nil => exact absurd (congrArg List.length hrev) (by simp)
    | cons d0 rest =>
      have hd0 : d0 = d := by
        unfold lastCharQ at hd
        rw [show (c :: t).reverse = d0 :: rest from hrev] at hd
        exact Option.some.inj hd
      have hdb0 : d0 ≠ btick := by
        rw [hd0]
        exact hdb
      exact charsPrefix_cons_false (fun he => hdb0 he.symm) _ _
  have hpws_c : pyWs c = false := starter_not_pyWs hst
  have hpws_d : pyWs d = false := closer_not_pyWs hcl
  have hps2 : pyStrip (String.mk (c :: t)) = String.mk (c :: t) := by
    unfold pyStrip
    show String.mk (stripBy pyWs (c :: t)) = _
    rw [stripBy_eq_of_ends hpws_c hd hpws_d]
  have hjl : json_loads (String.mk (c :: t)) = some j := by
    simp only [json_loads]
    have hJ : jsonStripChars (String.mk (c :: t)).data = c :: t := by
      show stripBy jsonWs (c :: t) = c :: t
      exact stripBy_eq_of_ends (jsonWs_false_of_pyWs hpws_c) hd (jsonWs_false_of_pyWs hpws_d)
    rw [hJ, hpv]
  have hc1x : ¬ (pyStartsWith (String.mk (c :: t)) "```json" = true) := by
    rw [hc1]
    exact Bool.false_ne_true
  have hc2x : ¬ (pyStartsWith (String.mk (c :: t)) "```" = true) := by
    rw [hc2]
    exact Bool.false_ne_true
  have hc3x : ¬ (pyEndsWith (String.mk (c :: t)) "```" = true) := by
    rw [hc3]
    exact Bool.false_ne_true
  simp only [cleaned_json_loads]
  rw [hps, if_neg hc1x, if_neg hc2x, if_neg hc3x, hps2]
  exact hjl

theorem cleaned_wrapped {s : String} {j : Json} {c d : Char} {t : List Char}
    (hcore : stripBy jsonWs s.data = c :: t)
    (hst : starterB c = true) (hd : lastCharQ (c :: t) = some d) (hcl : closerB d = true)
    (hpv : parseValue (4 * (c :: t).length + 8) (c :: t) = some (j, [])) :
    cleaned_json_loads ("```json" ++ s ++ "```") = some j := by
  have hwdata : ("```json" ++ s ++ "```").data
      = "```json".data ++ (s.data ++ "```".data) := by
    rw [str_data_append, str_data_append, List.append_assoc]
  have hbw : pyWs btick = false := by decide
  have hlastw : lastCharQ ("```json".data ++ (s.data ++ "```".data)) = some btick := by
    rw [show "```json".data ++ (s.data ++ "```".data)
        = ("```json".data ++ s.data) ++ "```".data from by rw [List.append_assoc]]
    exact lastCharQ_append _ (by decide)
  have hstw : stripBy pyWs ("```json".data ++ (s.data ++ "```".data))
      = "```json".data ++ (s.data ++ "```".data) := by
    unfold stripBy
    rw [show "```json".data ++ (s.data ++ "```".data)
        = btick :: ("``json".data ++ (s.data ++ "```".data)) from rfl]
    rw [dropWhile_cons_neg _ hbw]
    rw [show btick :: ("``json".data ++ (s.data ++ "```".data))
        = "```json".data ++ (s.data ++ "```".data) from rfl]
    exact rstripBy_eq_self hlastw hbw
  have hps_w : pyStrip ("```json" ++ s ++ "```")
      = String.mk ("```json".data ++ (s.data ++ "```".data)) := by
    unfold pyStrip
    rw [hwdata, hstw]
  have hcond1 : pyStartsWith
      (String.mk ("```json".data ++ (s.data ++ "```".data))) "```json" = true := by
    unfold pyStartsWith
    exact charsPrefix_append_self _ _
  have hdrop7 : strDrop 7 (String.mk ("```json".data ++ (s.data ++ "```".data)))
      = String.mk (s.data ++ "```".data) := by
    unfold strDrop
    show String.mk (("```json".data ++ (s.data ++ "```".data)).drop 7) = _
    rw [show (7 : Nat) = ("```json".data).length from rfl, List.drop_left]
  have hhead : ∃ e E, s.data = e :: E ∧ btick ≠ e := by
    obtain ⟨pre, suf, hdec, hpre, hsuf⟩ := stripBy_decomp jsonWs s.data
    rw [hcore] at hdec
    cases pre with
    | nil =>
      refine ⟨c, t ++ suf, ?_, fun he => starter_ne_btick hst he.symm⟩
      rw [hdec, List.nil_append, List.cons_append]
    | cons a pre1 =>
      refine ⟨a, pre1 ++ ((c :: t) ++ suf), ?_, ?_⟩
      · rw [hdec]
        simp [List.append_assoc]
      · intro he
        have hja : jsonWs a = true := hpre a (List.mem_cons_self a pre1)
        rw [← he] at hja
        exact absurd hja (by decide)
  obtain ⟨e, E, hsdata, hbe⟩ := hhead
  have hcond2 : pyStartsWith (String.mk (s.data ++ "```".data)) "```" = false := by
    unfold pyStartsWith
    show charsPrefix ("```" : String).data (s.data ++ "```".data) = false
    rw [hsdata, List.cons_append,
        show ("```" : String).data = btick :: [btick, btick] from rfl]
    exact charsPrefix_cons_false hbe _ _
  have hcond3 : pyEndsWith (String.mk (s.data ++ "```".data)) "```" = true := by
    unfold pyEndsWith
    show charsPrefix ("```" : String).data.reverse (s.data ++ "```".data).reverse = true
    rw [List.reverse_append,
        show ("```" : String).data.reverse = btick :: [btick, btick] from rfl]
    exact charsPrefix_append_self _ _
  have hdropR : strDropRight 3 (String.mk (s.data ++ "```".data)) = String.mk s.data := by
    unfold strDropRight
    show String.mk ((s.data ++ "```".data).take ((s.data ++ "```".data).length - 3)) = _
    have hlen : (s.data ++ "```".data).length - 3 = s.data.length := by
      rw [List.length_append, show ("```".data).length = 3 from rfl]
      omega
    rw [hlen, List.take_left]
  have hpws_c : pyWs c = false := starter_not_pyWs hst
  have hpws_d : pyWs d = false := closer_not_pyWs hcl
  have hstripPy : stripBy pyWs s.data = c :: t := stripBy_wsSuperset hcore hpws_c hd hpws_d
  have hps_final : pyStrip (String.mk s.data) = String.mk (c :: t) := by
    unfold pyStrip
    show String.mk (stripBy pyWs s.data) = _
    rw [hstripPy]
  have hjl : json_loads (String.mk (c :: t)) = some j := by
    simp only [json_loads]
    have hJ : jsonStripChars (String.mk (c :: t)).data = c :: t := by
      show stripBy jsonWs (c :: t) = c :: t
      exact stripBy_eq_of_ends (jsonWs_false_of_pyWs hpws_c) hd (jsonWs_false_of_pyWs hpws_d)
    rw [hJ, hpv]
  have hcond2x : ¬ (pyStartsWith (String.mk (s.data ++ "```".data)) "```" = true) := by
    rw [hcond2]
    exact Bool.false_ne_true
  simp only [cleaned_json_loads]
  rw [hps_w, if_pos hcond1, hdrop7, if_neg hcond2x, if_pos hcond3, hdropR, hps_final]
  exact hjl

/-- C8: cleanup is insensitive to code-fence wrapping: for every string
accepted by `json.loads`, feeding the Parser cleanup the string wrapped
in markdown code-fence markers yields the same structured result as
feeding it unwrapped, namely the decoded JSON value. -/
theorem cleanup_fence_insensitive (s : String) (j : Json)
    (h : json_loads s = some j) :
    ResumeParser.parse_json_safely ("```json" ++ s ++ "```") =
      ResumeParser.parse_json_safely s ∧
    ResumeParser.parse_json_safely s = some j := by
  obtain ⟨c, t, d, hcore, hst, hd, hcl, hpv⟩ := loads_core_shape h
  have h1 : cleaned_json_loads s = some j :=
    cleaned_of_core (stripBy_wsSuperset hcore (starter_not_pyWs hst) hd (closer_not_pyWs hcl))
      hst hd hcl hpv
  have h2 : cleaned_json_loads ("```json" ++ s ++ "```") = some j :=
    cleaned_wrapped hcore hst hd hcl hpv
  constructor
  · show cleaned_json_loads _ = cleaned_json_loads _
    rw [h1, h2]
  · exact h1

/-- C8 witness at the concrete valid JSON document. -/
theorem cleanup_fence_insensitive_witness :
    ResumeParser.parse_json_safely ("```json" ++ "[0]" ++ "```") =
      ResumeParser.parse_json_safely "[0]" ∧
    ResumeParser.parse_json_safely "[0]" = some (Json.arr [Json.num "0"]) :=
  cleanup_fence_insensitive "[0]" (Json.arr [Json.num "0"]) rfl
